import Mathlib

/-!
Verification of the asx-tapes-arcade tape host and orchestration runtime.

Shallow embedding of the JavaScript source into Lean 4:

* `Scheduler`  — `src/kuhul/scheduler.js` (metrics / online latency mean)
* `XJSON`      — `src/xjson/runtime.js` (`handleWhile` iteration cap)
* `Tribunal`   — `src/unnamed/part_009` (`calculateConsensus`, vote collection)
* `Kuhul`      — `src/kuhul/interpreter.js` (stack VM operations)
* `Ghost`      — `src/unnamed/part_008` (lazy tape registry and handlers)
* `Server`     — `src/unnamed/part_006` (`/xjson/run` request envelope)
* `EvalExpr`   — `src/xjson-server/handlers/core.js` (`eval_expr`)
* `SandboxFs`  — `src/unnamed/part_004` (`safePath` and the `fs_*` handlers)
* `Scxq2`      — `src/xjson-server/handlers/scxq2.js` (compression codec)

JavaScript numbers are modelled as exact rationals (`ℚ`); JS `NaN` results
are modelled by a dedicated value where they can arise.  Stateful modules
are modelled by explicit state passing.
-/

/- ===============================================================
   Scheduler: src/kuhul/scheduler.js
   =============================================================== -/

namespace Scheduler

/-- Metrics record of the scheduler (`this.metrics` in `KuhulScheduler`). -/
structure Metrics where
  total_jobs : Nat
  successful_jobs : Nat
  failed_jobs : Nat
  avg_latency_ms : ℚ
deriving Repr, DecidableEq

/-- The update `updateAvgLatency(latency)`:
`avg = ((avg * (n - 1)) + latency) / n` with `n = successful_jobs`. -/
def updateAvgLatency (m : Metrics) (latency : ℚ) : Metrics :=
  let n : ℚ := m.successful_jobs
  { m with avg_latency_ms := ((m.avg_latency_ms * (n - 1)) + latency) / n }

/-- The metrics update performed on the success path of `scheduleRombosJob`:
`total_jobs++; successful_jobs++; updateAvgLatency(latency)`. -/
def recordSuccess (m : Metrics) (latency : ℚ) : Metrics :=
  updateAvgLatency
    { m with total_jobs := m.total_jobs + 1,
             successful_jobs := m.successful_jobs + 1 } latency

end Scheduler

/- ===============================================================
   XJSON runtime: src/xjson/runtime.js
   =============================================================== -/

namespace XJSON

/-- The constant `maxIterations` in `XJSONRuntime.handleWhile`. -/
def maxIterations : Nat := 10000

/-- The `while` loop of `handleWhile`, with the guard
`cond && iterations < maxIterations`.  `fuel` is the number of
iterations still allowed (`maxIterations - iterations`); the body maps the
runtime state to a new state together with the value pushed onto `results`.
Returns the final state, the accumulated `results`, and the number of body
iterations executed. -/
def whileAux {σ α : Type} (cond : σ → Bool) (body : σ → σ × α) :
    Nat → σ → σ × List α × Nat
  | 0, s => (s, [], 0)
  | fuel + 1, s =>
    if cond s then
      let p := body s
      let r := whileAux cond body fuel p.1
      (r.1, p.2 :: r.2.1, r.2.2 + 1)
    else (s, [], 0)

/-- The function `handleWhile`: run the loop, then throw the loop-limit
error (the string "Maximum iterations reached in @while loop") when
`iterations >= maxIterations`. -/
def handleWhile {σ α : Type} (cond : σ → Bool) (body : σ → σ × α) (s : σ) :
    Except String (σ × List α) :=
  let r := whileAux cond body maxIterations s
  if r.2.2 ≥ maxIterations then
    .error "Maximum iterations reached in @while loop"
  else
    .ok (r.1, r.2.1)

theorem whileAux_count_le {σ α : Type} (cond : σ → Bool) (body : σ → σ × α) :
    ∀ (fuel : Nat) (s : σ), (whileAux cond body fuel s).2.2 ≤ fuel := by
  intro fuel
  induction fuel with
  | zero => intro s; simp [whileAux]
  | succ n ih =>
    intro s
    by_cases h : cond s
    · simp only [whileAux, h, if_true]
      exact Nat.succ_le_succ (ih (body s).1)
    · simp [whileAux, h]

theorem whileAux_count_of_true {σ α : Type} (cond : σ → Bool) (body : σ → σ × α)
    (hc : ∀ t, cond t = true) :
    ∀ (fuel : Nat) (s : σ), (whileAux cond body fuel s).2.2 = fuel := by
  intro fuel
  induction fuel with
  | zero => intro s; simp [whileAux]
  | succ n ih =>
    intro s
    simp only [whileAux, hc s, if_true]
    exact congrArg Nat.succ (ih (body s).1)

end XJSON

/-- C7: Every `@while` execution performs at most 10000 body iterations;
when the condition never becomes false, `handleWhile` executes exactly
10000 body iterations and then aborts with the loop-limit error
(the string "Maximum iterations reached in @while loop"). -/
theorem xjson_while_loop_limit {σ α : Type} (cond : σ → Bool) (body : σ → σ × α)
    (s : σ) (hc : ∀ t, cond t = true) :
    (XJSON.whileAux cond body XJSON.maxIterations s).2.2 ≤ 10000 ∧
    (XJSON.whileAux cond body XJSON.maxIterations s).2.2 = 10000 ∧
    XJSON.handleWhile cond body s =
      .error "Maximum iterations reached in @while loop" := by
  refine ⟨XJSON.whileAux_count_le cond body _ s, ?_, ?_⟩
  · exact XJSON.whileAux_count_of_true cond body hc XJSON.maxIterations s
  · unfold XJSON.handleWhile
    simp only [XJSON.whileAux_count_of_true cond body hc XJSON.maxIterations s]
    simp [XJSON.maxIterations]

/-- Witness for C7: the constantly-true condition hits the loop limit. -/
theorem xjson_while_loop_limit_witness :
    (XJSON.whileAux (fun (_ : Nat) => true) (fun s => (s + 1, s)) XJSON.maxIterations 0).2.2 ≤ 10000 ∧
    (XJSON.whileAux (fun (_ : Nat) => true) (fun s => (s + 1, s)) XJSON.maxIterations 0).2.2 = 10000 ∧
    XJSON.handleWhile (fun (_ : Nat) => true) (fun s => (s + 1, s)) 0 =
      .error "Maximum iterations reached in @while loop" :=
  xjson_while_loop_limit (fun _ => true) (fun s => (s + 1, s)) 0 (fun _ => rfl)

/- ===============================================================
   Tribunal: src/unnamed/part_009 (class Tribunal)
   =============================================================== -/

namespace Tribunal

/-- Vote of a judge; `calculateConsensus` reads `vote.vote.verdict` and
`vote.vote.confidence` of each entry of `session.votes`. -/
structure Vote where
  verdict : String
  confidence : ℚ
deriving Repr, DecidableEq

/-- JS `Math.round`: round half toward positive infinity. -/
def jsRound (q : ℚ) : ℤ := ⌊q + 1/2⌋

/-- One step of
`verdictCounts[v] = (verdictCounts[v] || 0) + 1` on a JS object:
an existing key is updated in place, a new key is appended
(JS objects preserve string-key insertion order). -/
def bump : List (String × Nat) → String → List (String × Nat)
  | [], v => [(v, 1)]
  | p :: rest, v => if p.1 = v then (p.1, p.2 + 1) :: rest else p :: bump rest v

/-- The `verdictCounts` object built by the first loop of `calculateConsensus`. -/
def verdictCounts (votes : List Vote) : List (String × Nat) :=
  votes.foldl (fun acc vt => bump acc vt.verdict) []

/-- Insertion step of a stable descending sort by count: the new entry goes
after all existing entries with a count ≥ its own. -/
def insertDesc (x : String × Nat) : List (String × Nat) → List (String × Nat)
  | [] => [x]
  | y :: ys => if x.2 ≤ y.2 then y :: insertDesc x ys else x :: y :: ys

/-- The sorted list `Object.entries(verdictCounts).sort((a, b) => b[1] - a[1])`:
`Array.prototype.sort` is stable, so the observable result is the stable
descending-by-count ordering, computed here by stable insertion. -/
def sortDesc (l : List (String × Nat)) : List (String × Nat) :=
  l.foldl (fun acc x => insertDesc x acc) []

/-- The consensus record returned by `calculateConsensus` (the `votes`
field, which echoes the input list, is omitted; `distribution` and
`unanimousDecision` are absent on the empty branch). -/
structure Consensus where
  verdict : String
  confidence : ℚ
  agreementRate : ℤ
  hasDisagreement : Bool
  distribution : Option (List (String × Nat))
  unanimousDecision : Option Bool
deriving Repr, DecidableEq

/-- The function `Tribunal.calculateConsensus(votes)`. -/
def calculateConsensus (votes : List Vote) : Consensus :=
  if votes.isEmpty then
    { verdict := "NO_QUORUM", confidence := 0, agreementRate := 0,
      hasDisagreement := false, distribution := none, unanimousDecision := none }
  else
    let counts := verdictCounts votes
    let sorted := sortDesc counts
    -- JS reads sortedVerdicts[0]; `sorted` is nonempty whenever votes is.
    let top := sorted.headD ("", 0)
    let majorityCount := top.2
    let totalConfidence := (votes.map (·.confidence)).sum
    let agreementRate : ℤ := jsRound ((majorityCount : ℚ) / (votes.length : ℚ) * 100)
    let avgConfidence := totalConfidence / (votes.length : ℚ)
    let agreementFactor : ℚ := (agreementRate : ℚ) / 100
    { verdict := top.1,
      confidence := (avgConfidence * 0.6) + (agreementFactor * 0.4),
      agreementRate := agreementRate,
      hasDisagreement := decide (sorted.length > 1),
      distribution := some counts,
      unanimousDecision := some (decide (agreementRate = 100)) }

/-- Vote collection in `Tribunal.evaluate`: each settled judge promise is
either a fulfilled vote (pushed onto `session.votes`) or a rejection
(only logged, excluded from consensus). -/
def collectVotes (results : List (Except String Vote)) : List Vote :=
  results.foldl (fun acc r => match r with | .ok v => acc ++ [v] | .error _ => acc) []

/-- First-match count lookup in an association list (JS `verdictCounts[k]`). -/
def lookupCount : List (String × Nat) → String → Nat
  | [], _ => 0
  | p :: rest, k => if p.1 = k then p.2 else lookupCount rest k

theorem bump_lookup (l : List (String × Nat)) (v k : String) :
    lookupCount (bump l v) k = lookupCount l k + (if k = v then 1 else 0) := by
  induction l with
  | nil =>
    by_cases h : k = v
    · subst h; simp [bump, lookupCount]
    · have h' : ¬ v = k := fun hv => h hv.symm
      simp [bump, lookupCount, h, h']
  | cons p rest ih =>
    by_cases hp : p.1 = v
    · by_cases hk : p.1 = k
      · have hkv : k = v := hk.symm.trans hp
        simp [bump, lookupCount, hp, hk, hkv]
      · have hkv : ¬ k = v := fun h => hk (hp.trans h.symm)
        have hvk : ¬ v = k := fun h => hkv h.symm
        simp [bump, lookupCount, hp, hk, hkv, hvk]
    · by_cases hk : p.1 = k
      · have hkv : ¬ k = v := fun h => hp (hk.trans h)
        simp [bump, lookupCount, hp, hk, hkv]
      · simp [bump, lookupCount, hp, hk, ih]

theorem verdictCounts_aux_lookup (votes : List Vote) :
    ∀ (acc : List (String × Nat)) (k : String),
      lookupCount (votes.foldl (fun acc vt => bump acc vt.verdict) acc) k =
        lookupCount acc k + votes.countP (fun vt => vt.verdict = k) := by
  induction votes with
  | nil => intro acc k; simp
  | cons vt rest ih =>
    intro acc k
    rw [List.foldl_cons, ih, bump_lookup, List.countP_cons]
    by_cases h : vt.verdict = k
    · subst h
      simp
      omega
    · have h' : ¬ k = vt.verdict := fun hk => h hk.symm
      simp [h, h']

/-- The object `verdictCounts` counts exactly the votes carrying each verdict. -/
theorem verdictCounts_lookup (votes : List Vote) (k : String) :
    lookupCount (verdictCounts votes) k = votes.countP (fun vt => vt.verdict = k) := by
  have := verdictCounts_aux_lookup votes [] k
  simpa [verdictCounts, lookupCount] using this

theorem bump_keys_of_mem (l : List (String × Nat)) (v : String)
    (h : v ∈ l.map Prod.fst) : (bump l v).map Prod.fst = l.map Prod.fst := by
  induction l with
  | nil => simp at h
  | cons p rest ih =>
    by_cases hp : p.1 = v
    · simp [bump, hp]
    · have hrest : v ∈ rest.map Prod.fst := by
        rcases List.mem_map.mp h with ⟨q, hq, hqv⟩
        rcases List.mem_cons.mp hq with hq | hq
        · exact absurd (hq ▸ hqv) hp
        · exact List.mem_map.mpr ⟨q, hq, hqv⟩
      simp [bump, hp, ih hrest]

theorem bump_keys_of_not_mem (l : List (String × Nat)) (v : String)
    (h : v ∉ l.map Prod.fst) : (bump l v).map Prod.fst = l.map Prod.fst ++ [v] := by
  induction l with
  | nil => simp [bump]
  | cons p rest ih =>
    have hp : p.1 ≠ v := by
      intro hv; exact h (by simp [hv])
    have hrest : v ∉ rest.map Prod.fst := fun hv => h (by simp [hv])
    simp [bump, hp, ih hrest]

theorem bump_keys_nodup (l : List (String × Nat)) (v : String)
    (h : (l.map Prod.fst).Nodup) : ((bump l v).map Prod.fst).Nodup := by
  by_cases hv : v ∈ l.map Prod.fst
  · rwa [bump_keys_of_mem l v hv]
  · rw [bump_keys_of_not_mem l v hv, List.nodup_append]
    refine ⟨h, List.nodup_singleton v, ?_⟩
    intro a ha hav
    rw [List.mem_singleton] at hav
    exact hv (hav ▸ ha)

theorem verdictCounts_keys_nodup (votes : List Vote) :
    ((verdictCounts votes).map Prod.fst).Nodup := by
  suffices h : ∀ (acc : List (String × Nat)), (acc.map Prod.fst).Nodup →
      ((votes.foldl (fun acc vt => bump acc vt.verdict) acc).map Prod.fst).Nodup by
    exact h [] (by simp)
  induction votes with
  | nil => intro acc hacc; simpa using hacc
  | cons vt rest ih =>
    intro acc hacc
    exact ih _ (bump_keys_nodup acc vt.verdict hacc)

theorem lookupCount_of_mem_nodup (l : List (String × Nat))
    (h : (l.map Prod.fst).Nodup) (p : String × Nat) (hp : p ∈ l) :
    lookupCount l p.1 = p.2 := by
  induction l with
  | nil => simp at hp
  | cons q rest ih =>
    rw [List.map_cons, List.nodup_cons] at h
    have hnd := h
    rcases List.mem_cons.mp hp with hp | hp
    · simp [lookupCount, hp]
    · have hq : q.1 ≠ p.1 := by
        intro hqp
        have hmem : p.1 ∈ rest.map Prod.fst := List.mem_map.mpr ⟨p, hp, rfl⟩
        exact hnd.1 (hqp ▸ hmem)
      have hrec := ih hnd.2 hp
      simp [lookupCount, hq, hrec]

theorem insertDesc_perm (x : String × Nat) (l : List (String × Nat)) :
    List.Perm (insertDesc x l) (x :: l) := by
  induction l with
  | nil => simp [insertDesc]
  | cons y ys ih =>
    by_cases h : x.2 ≤ y.2
    · simp only [insertDesc, if_pos h]
      exact (List.Perm.cons y ih).trans (List.Perm.swap x y ys)
    · simp [insertDesc, h]

theorem sortDesc_perm (l : List (String × Nat)) : List.Perm (sortDesc l) l := by
  suffices h : ∀ (acc : List (String × Nat)),
      List.Perm (l.foldl (fun acc x => insertDesc x acc) acc) (l ++ acc) by
    simpa [sortDesc] using h []
  induction l with
  | nil => intro acc; simp
  | cons x xs ih =>
    intro acc
    have h1 : (x :: xs).foldl (fun acc x => insertDesc x acc) acc
        = xs.foldl (fun acc x => insertDesc x acc) (insertDesc x acc) := by simp
    rw [h1]
    refine (ih _).trans ?_
    refine (List.Perm.append_left xs (insertDesc_perm x acc)).trans ?_
    exact List.perm_middle

theorem insertDesc_pairwise (x : String × Nat) (l : List (String × Nat))
    (h : l.Pairwise (fun a b => b.2 ≤ a.2)) :
    (insertDesc x l).Pairwise (fun a b => b.2 ≤ a.2) := by
  induction l with
  | nil => simp [insertDesc]
  | cons y ys ih =>
    rcases List.pairwise_cons.mp h with ⟨hy, hys⟩
    by_cases hc : x.2 ≤ y.2
    · simp only [insertDesc, if_pos hc]
      refine List.pairwise_cons.mpr ⟨?_, ih hys⟩
      intro z hz
      rcases List.mem_cons.mp ((insertDesc_perm x ys).mem_iff.mp hz) with hz | hz
      · rw [hz]; exact hc
      · exact hy z hz
    · push_neg at hc
      simp only [insertDesc, if_neg (not_le.mpr hc)]
      refine List.pairwise_cons.mpr ⟨?_, h⟩
      intro z hz
      rcases List.mem_cons.mp hz with hz | hz
      · rw [hz]; exact le_of_lt hc
      · exact le_trans (hy z hz) (le_of_lt hc)

theorem sortDesc_pairwise (l : List (String × Nat)) :
    (sortDesc l).Pairwise (fun a b => b.2 ≤ a.2) := by
  suffices h : ∀ (acc : List (String × Nat)), acc.Pairwise (fun a b => b.2 ≤ a.2) →
      (l.foldl (fun acc x => insertDesc x acc) acc).Pairwise (fun a b => b.2 ≤ a.2) by
    exact h [] (by simp)
  induction l with
  | nil => intro acc hacc; simpa using hacc
  | cons x xs ih =>
    intro acc hacc
    exact ih _ (insertDesc_pairwise x acc hacc)

theorem insertDesc_ne_nil (x : String × Nat) (l : List (String × Nat)) :
    insertDesc x l ≠ [] := by
  cases l with
  | nil => simp [insertDesc]
  | cons y ys =>
    by_cases h : x.2 ≤ y.2 <;> simp [insertDesc, h]

theorem sortDesc_ne_nil (l : List (String × Nat)) (h : l ≠ []) :
    sortDesc l ≠ [] := by
  intro hs
  have := (sortDesc_perm l).length_eq
  rw [hs] at this
  exact h (List.length_eq_zero.mp this.symm)

theorem lookupCount_zero_or_mem (l : List (String × Nat)) (k : String) :
    lookupCount l k = 0 ∨ ∃ p ∈ l, lookupCount l k = p.2 := by
  induction l with
  | nil => left; rfl
  | cons q rest ih =>
    by_cases hq : q.1 = k
    · right; exact ⟨q, List.mem_cons_self q rest, by simp [lookupCount, hq]⟩
    · rcases ih with h0 | ⟨p, hp, hval⟩
      · left; simp [lookupCount, hq, h0]
      · right; exact ⟨p, List.mem_cons_of_mem q hp, by simp [lookupCount, hq, hval]⟩

theorem verdictCounts_ne_nil (votes : List Vote) (h : votes ≠ []) :
    verdictCounts votes ≠ [] := by
  suffices haux : ∀ (vs : List Vote) (acc : List (String × Nat)), acc ≠ [] →
      vs.foldl (fun acc vt => bump acc vt.verdict) acc ≠ [] by
    cases votes with
    | nil => exact absurd rfl h
    | cons vt rest =>
      have h1 : bump [] vt.verdict ≠ [] := by simp [bump]
      simpa [verdictCounts] using haux rest (bump [] vt.verdict) h1
  intro vs
  induction vs with
  | nil => intro acc hacc; simpa using hacc
  | cons vt rest ih =>
    intro acc hacc
    have : bump acc vt.verdict ≠ [] := by
      cases acc with
      | nil => simp [bump]
      | cons p ps => by_cases hp : p.1 = vt.verdict <;> simp [bump, hp]
    simpa using ih _ this

/-- Shape of `calculateConsensus` on a nonempty vote list, expressed through
the head of the sorted verdict distribution. -/
theorem calculateConsensus_cons (votes : List Vote) (h : votes.isEmpty = false)
    (top : String × Nat) (rest : List (String × Nat))
    (hsort : sortDesc (verdictCounts votes) = top :: rest) :
    calculateConsensus votes =
      { verdict := top.1,
        confidence := ((votes.map (fun vt => vt.confidence)).sum / (votes.length : ℚ)) * 0.6 +
          ((jsRound ((top.2 : ℚ) / (votes.length : ℚ) * 100) : ℚ) / 100) * 0.4,
        agreementRate := jsRound ((top.2 : ℚ) / (votes.length : ℚ) * 100),
        hasDisagreement := decide ((top :: rest).length > 1),
        distribution := some (verdictCounts votes),
        unanimousDecision :=
          some (decide (jsRound ((top.2 : ℚ) / (votes.length : ℚ) * 100) = 100)) } := by
  simp only [calculateConsensus, h, Bool.false_eq_true, if_false, hsort, List.headD_cons]

end Tribunal

/-- C6: when every judge errored or timed out (all judge promises rejected),
the set of non-error votes of the session is empty and the consensus verdict is
`NO_QUORUM`. -/
theorem tribunal_no_quorum (results : List (Except String Tribunal.Vote))
    (h : ∀ r ∈ results, ∃ e, r = Except.error e) :
    Tribunal.collectVotes results = [] ∧
    (Tribunal.calculateConsensus (Tribunal.collectVotes results)).verdict = "NO_QUORUM" ∧
    (Tribunal.calculateConsensus (Tribunal.collectVotes results)).confidence = 0 := by
  have hcv : Tribunal.collectVotes results = [] := by
    have haux : ∀ (rs : List (Except String Tribunal.Vote)) (acc : List Tribunal.Vote),
        (∀ r ∈ rs, ∃ e, r = Except.error e) →
        rs.foldl (fun acc r => match r with | .ok v => acc ++ [v] | .error _ => acc) acc
          = acc := by
      intro rs
      induction rs with
      | nil => intro acc _; rfl
      | cons r rest ih =>
        intro acc hall
        rcases hall r (List.mem_cons_self r rest) with ⟨e, he⟩
        subst he
        exact ih acc (fun r' hr' => hall r' (List.mem_cons_of_mem _ hr'))
    exact haux results [] h
  refine ⟨hcv, ?_, ?_⟩ <;> rw [hcv] <;> rfl

/-- Witness for C6: two rejected judge promises yield no votes and a
`NO_QUORUM` verdict. -/
theorem tribunal_no_quorum_witness :
    Tribunal.collectVotes [Except.error "HTTP 500", Except.error "timeout"] = [] ∧
    (Tribunal.calculateConsensus
      (Tribunal.collectVotes [Except.error "HTTP 500", Except.error "timeout"])).verdict
        = "NO_QUORUM" ∧
    (Tribunal.calculateConsensus
      (Tribunal.collectVotes [Except.error "HTTP 500", Except.error "timeout"])).confidence
        = 0 :=
  tribunal_no_quorum [Except.error "HTTP 500", Except.error "timeout"]
    (by
      intro r hr
      rcases List.mem_cons.mp hr with hr | hr
      · exact ⟨"HTTP 500", hr⟩
      · rw [List.mem_singleton] at hr
        exact ⟨"timeout", hr⟩)

/-- C5 counterexample: with votes `APPROVE, APPROVE, REJECT` (confidence 0.9
each), the majority count is 2 of 3 votes, but the stored agreement rate is
the rounded percentage `67` (not `2/3`), and the stored consensus confidence
is `0.9·0.6 + 0.67·0.4 = 101/125`, not `0.9·0.6 + (2/3)·0.4` as the claim
states. -/
theorem tribunal_consensus_counterexample :
    (Tribunal.calculateConsensus
      [⟨"APPROVE", 9/10⟩, ⟨"APPROVE", 9/10⟩, ⟨"REJECT", 9/10⟩]).verdict = "APPROVE" ∧
    ([(⟨"APPROVE", 9/10⟩ : Tribunal.Vote), ⟨"APPROVE", 9/10⟩, ⟨"REJECT", 9/10⟩].countP
      (fun vt => vt.verdict = "APPROVE") = 2) ∧
    ([(⟨"APPROVE", 9/10⟩ : Tribunal.Vote), ⟨"APPROVE", 9/10⟩, ⟨"REJECT", 9/10⟩].length = 3) ∧
    (Tribunal.calculateConsensus
      [⟨"APPROVE", 9/10⟩, ⟨"APPROVE", 9/10⟩, ⟨"REJECT", 9/10⟩]).agreementRate = 67 ∧
    ((67 : ℚ) ≠ 2/3) ∧
    (Tribunal.calculateConsensus
      [⟨"APPROVE", 9/10⟩, ⟨"APPROVE", 9/10⟩, ⟨"REJECT", 9/10⟩]).confidence = 101/125 ∧
    ((101 : ℚ)/125 ≠ (9/10) * 0.6 + ((2 : ℚ)/3) * 0.4) := by
  have hsort : Tribunal.sortDesc (Tribunal.verdictCounts
      [⟨"APPROVE", 9/10⟩, ⟨"APPROVE", 9/10⟩, ⟨"REJECT", 9/10⟩])
      = [("APPROVE", 2), ("REJECT", 1)] := by rfl
  have hrec := Tribunal.calculateConsensus_cons
    [⟨"APPROVE", 9/10⟩, ⟨"APPROVE", 9/10⟩, ⟨"REJECT", 9/10⟩] rfl
    ("APPROVE", 2) [("REJECT", 1)] hsort
  have h67 : Tribunal.jsRound (((2 : Nat) : ℚ) / ((3 : Nat) : ℚ) * 100) = 67 := by
    norm_num [Tribunal.jsRound, Int.floor_eq_iff]
  rw [hrec]
  refine ⟨rfl, by rfl, rfl, ?_, by norm_num, ?_, by norm_num⟩
  · simpa using h67
  · simp only [List.map_cons, List.map_nil, List.sum_cons, List.sum_nil, List.length_cons,
      List.length_nil]
    rw [show ((("APPROVE", 2) : String × Nat).2 : ℚ) = ((2 : Nat) : ℚ) from rfl] at *
    push_cast at h67 ⊢
    rw [h67]
    norm_num

/-- C5 amended: for a nonempty vote list, the consensus verdict is a mode of
the vote verdicts; the stored agreement rate is the *rounded integer
percentage* `Math.round(100 · majority/total)` rather than the exact ratio,
and the consensus confidence is `avg(confidence)·0.6 + (rounded rate/100)·0.4`. -/
theorem tribunal_consensus_amended (votes : List Tribunal.Vote) (h : votes ≠ []) :
    ((Tribunal.calculateConsensus votes).verdict ∈ votes.map (fun vt => vt.verdict)) ∧
    (∀ k : String, votes.countP (fun vt => vt.verdict = k) ≤
        votes.countP (fun vt => vt.verdict = (Tribunal.calculateConsensus votes).verdict)) ∧
    (Tribunal.calculateConsensus votes).agreementRate =
      Tribunal.jsRound
        (((votes.countP
            (fun vt => vt.verdict = (Tribunal.calculateConsensus votes).verdict) : ℚ) /
          (votes.length : ℚ)) * 100) ∧
    (Tribunal.calculateConsensus votes).confidence =
      ((votes.map (fun vt => vt.confidence)).sum / (votes.length : ℚ)) * 0.6 +
        (((Tribunal.calculateConsensus votes).agreementRate : ℚ) / 100) * 0.4 := by
  have hie : votes.isEmpty = false := by
    cases votes with
    | nil => exact absurd rfl h
    | cons v vs => rfl
  rcases hs : Tribunal.sortDesc (Tribunal.verdictCounts votes) with _ | ⟨top, rest⟩
  · exact absurd hs
      (Tribunal.sortDesc_ne_nil _ (Tribunal.verdictCounts_ne_nil votes h))
  have hrec := Tribunal.calculateConsensus_cons votes hie top rest hs
  have htop_mem : top ∈ Tribunal.verdictCounts votes := by
    have h1 : top ∈ Tribunal.sortDesc (Tribunal.verdictCounts votes) := by
      rw [hs]; exact List.mem_cons_self top rest
    exact (Tribunal.sortDesc_perm (Tribunal.verdictCounts votes)).mem_iff.mp h1
  have htc : votes.countP (fun vt => vt.verdict = top.1) = top.2 := by
    rw [← Tribunal.verdictCounts_lookup votes top.1]
    exact Tribunal.lookupCount_of_mem_nodup _ (Tribunal.verdictCounts_keys_nodup votes) top
      htop_mem
  have hmax : ∀ k : String,
      votes.countP (fun vt => vt.verdict = k) ≤ top.2 := by
    intro k
    rw [← Tribunal.verdictCounts_lookup votes k]
    rcases Tribunal.lookupCount_zero_or_mem (Tribunal.verdictCounts votes) k with h0 | ⟨p, hp, hval⟩
    · rw [h0]; exact Nat.zero_le _
    · rw [hval]
      have hpw := Tribunal.sortDesc_pairwise (Tribunal.verdictCounts votes)
      rw [hs] at hpw
      have hmem : p ∈ Tribunal.sortDesc (Tribunal.verdictCounts votes) :=
        (Tribunal.sortDesc_perm (Tribunal.verdictCounts votes)).mem_iff.mpr hp
      rw [hs] at hmem
      rcases List.mem_cons.mp hmem with hptop | hptail
      · rw [hptop]
      · exact (List.pairwise_cons.mp hpw).1 p hptail
  have hpos : 0 < top.2 := by
    cases votes with
    | nil => exact absurd rfl h
    | cons v vs =>
      have h1 : 0 < (v :: vs).countP (fun vt => vt.verdict = v.verdict) :=
        List.countP_pos_iff.mpr ⟨v, List.mem_cons_self v vs, by simp⟩
      exact lt_of_lt_of_le h1 (hmax v.verdict)
  rw [hrec]
  refine ⟨?_, ?_, ?_, ?_⟩
  · have h1 : 0 < votes.countP (fun vt => vt.verdict = top.1) := htc ▸ hpos
    rcases List.countP_pos_iff.mp h1 with ⟨vt, hvt, hveq⟩
    have hveq' : vt.verdict = top.1 := by simpa using hveq
    exact List.mem_map.mpr ⟨vt, hvt, hveq'⟩
  · intro k
    rw [htc]
    exact hmax k
  · rw [htc]
  · rfl

/-- Witness for C5 (amended): a concrete two-vote session. -/
theorem tribunal_consensus_amended_witness :
    ((Tribunal.calculateConsensus
        [⟨"APPROVE", 4/5⟩, ⟨"REJECT", 3/5⟩]).verdict ∈
      ([⟨"APPROVE", 4/5⟩, ⟨"REJECT", 3/5⟩] : List Tribunal.Vote).map (fun vt => vt.verdict)) ∧
    (∀ k : String,
      ([⟨"APPROVE", 4/5⟩, ⟨"REJECT", 3/5⟩] : List Tribunal.Vote).countP
          (fun vt => vt.verdict = k) ≤
        ([⟨"APPROVE", 4/5⟩, ⟨"REJECT", 3/5⟩] : List Tribunal.Vote).countP
          (fun vt => vt.verdict =
            (Tribunal.calculateConsensus [⟨"APPROVE", 4/5⟩, ⟨"REJECT", 3/5⟩]).verdict)) ∧
    (Tribunal.calculateConsensus [⟨"APPROVE", 4/5⟩, ⟨"REJECT", 3/5⟩]).agreementRate =
      Tribunal.jsRound
        (((([⟨"APPROVE", 4/5⟩, ⟨"REJECT", 3/5⟩] : List Tribunal.Vote).countP
            (fun vt => vt.verdict =
              (Tribunal.calculateConsensus
                [⟨"APPROVE", 4/5⟩, ⟨"REJECT", 3/5⟩]).verdict) : ℚ) /
          (([⟨"APPROVE", 4/5⟩, ⟨"REJECT", 3/5⟩] : List Tribunal.Vote).length : ℚ)) * 100) ∧
    (Tribunal.calculateConsensus [⟨"APPROVE", 4/5⟩, ⟨"REJECT", 3/5⟩]).confidence =
      ((([⟨"APPROVE", 4/5⟩, ⟨"REJECT", 3/5⟩] : List Tribunal.Vote).map
          (fun vt => vt.confidence)).sum /
        (([⟨"APPROVE", 4/5⟩, ⟨"REJECT", 3/5⟩] : List Tribunal.Vote).length : ℚ)) * 0.6 +
        (((Tribunal.calculateConsensus
            [⟨"APPROVE", 4/5⟩, ⟨"REJECT", 3/5⟩]).agreementRate : ℚ) / 100) * 0.4 :=
  tribunal_consensus_amended [⟨"APPROVE", 4/5⟩, ⟨"REJECT", 3/5⟩] (by simp)

/-- C9: after a successful job completion, the stored average latency equals
the online mean `old_avg + (sample - old_avg) / n_success` where `n_success`
counts the completed job, i.e. the implemented update
`((old_avg * (n - 1)) + sample) / n` coincides with the online mean in exact
arithmetic. -/
theorem scheduler_avg_latency_online_mean (m : Scheduler.Metrics) (sample : ℚ) :
    (Scheduler.recordSuccess m sample).successful_jobs = m.successful_jobs + 1 ∧
    (Scheduler.recordSuccess m sample).avg_latency_ms =
      m.avg_latency_ms +
        (sample - m.avg_latency_ms) / ((m.successful_jobs : ℚ) + 1) := by
  constructor
  · rfl
  · show ((m.avg_latency_ms * (((m.successful_jobs + 1 : Nat) : ℚ) - 1)) + sample) /
        ((m.successful_jobs + 1 : Nat) : ℚ) =
      m.avg_latency_ms + (sample - m.avg_latency_ms) / ((m.successful_jobs : ℚ) + 1)
    have hn : ((m.successful_jobs : ℚ) + 1) ≠ 0 := by positivity
    push_cast
    field_simp
    ring

/- ===============================================================
   Kuhul glyph VM: src/kuhul/interpreter.js (class KuhulInterpreter)
   =============================================================== -/

namespace Kuhul

/-- Runtime values on the glyph VM stack.  `nan` models the JS number NaN
and collapsed division-by-zero results; `jsUndefined` models the JS
undefined value.  No
theorem below depends on those corners. -/
inductive Value where
  | num (q : ℚ)
  | nan
  | str (s : String)
  | bool (b : Bool)
  | null
  | jsUndefined
deriving Repr, DecidableEq

/-- JS truthiness of a value. -/
def truthy : Value → Bool
  | .num q => decide (q ≠ 0)
  | .nan => false
  | .str s => decide (s ≠ "")
  | .bool b => b
  | .null => false
  | .jsUndefined => false

/-- JS ToNumber on this value universe (`none` = NaN).  String operands in
numeric positions (which JS would parse) are mapped to `none`; no glyph
operation proved about below reaches that corner. -/
def jsToNumber : Value → Option ℚ
  | .num q => some q
  | .nan => none
  | .bool true => some 1
  | .bool false => some 0
  | .null => some 0
  | .str _ => none
  | .jsUndefined => none

/-- JS ToString rendering used by string concatenation (number rendering
differs from the JS float formatter only in presentation). -/
def jsToString : Value → String
  | .num q => toString q
  | .nan => "NaN"
  | .str s => s
  | .bool true => "true"
  | .bool false => "false"
  | .null => "null"
  | .jsUndefined => "undefined"

/-- JS `a + b`: string concatenation when either operand is a string,
numeric addition otherwise. -/
def jsAdd (a b : Value) : Value :=
  match a, b with
  | .str _, _ => .str (jsToString a ++ jsToString b)
  | _, .str _ => .str (jsToString a ++ jsToString b)
  | _, _ =>
    match jsToNumber a, jsToNumber b with
    | some x, some y => .num (x + y)
    | _, _ => .nan

/-- Numeric binary operator with ToNumber coercion. -/
def jsArith (f : ℚ → ℚ → ℚ) (a b : Value) : Value :=
  match jsToNumber a, jsToNumber b with
  | some x, some y => .num (f x y)
  | _, _ => .nan

def jsSub : Value → Value → Value := jsArith (fun x y => x - y)

def jsMul : Value → Value → Value := jsArith (fun x y => x * y)

/-- JS `a / b`; a zero divisor yields Infinity or NaN in JS, collapsed to
`nan` here (no claim concerns division by zero). -/
def jsDiv (a b : Value) : Value :=
  match jsToNumber a, jsToNumber b with
  | some x, some y => if y = 0 then .nan else .num (x / y)
  | _, _ => .nan

/-- JS relational comparison: lexicographic on two strings, numeric with
ToNumber otherwise (`false` when a side is NaN). -/
def jsCompare (fq : ℚ → ℚ → Bool) (fs : String → String → Bool)
    (a b : Value) : Value :=
  match a, b with
  | .str s, .str t => .bool (fs s t)
  | _, _ =>
    match jsToNumber a, jsToNumber b with
    | some x, some y => .bool (fq x y)
    | _, _ => .bool false

def jsGt : Value → Value → Value :=
  jsCompare (fun x y => decide (x > y)) (fun s t => decide (s > t))

def jsLt : Value → Value → Value :=
  jsCompare (fun x y => decide (x < y)) (fun s t => decide (s < t))

def jsGte : Value → Value → Value :=
  jsCompare (fun x y => decide (x ≥ y)) (fun s t => decide (s ≥ t))

def jsLte : Value → Value → Value :=
  jsCompare (fun x y => decide (x ≤ y)) (fun s t => decide (s ≤ t))

/-- JS strict equality `===` on this value universe (NaN is not equal to
itself). -/
def jsStrictEq : Value → Value → Bool
  | .num x, .num y => decide (x = y)
  | .str s, .str t => decide (s = t)
  | .bool x, .bool y => decide (x = y)
  | .null, .null => true
  | .jsUndefined, .jsUndefined => true
  | _, _ => false

/-- JS `a && b`. -/
def jsAnd (a b : Value) : Value := if truthy a then b else a

/-- JS `a || b`. -/
def jsOr (a b : Value) : Value := if truthy a then a else b

/-- JS `!a`. -/
def jsNot (a : Value) : Value := .bool (!truthy a)

/-- JS object assignment `obj[name] = v`: update an existing key in place,
append a new key. -/
def setAssoc {α : Type} : List (String × α) → String → α → List (String × α)
  | [], name, v => [(name, v)]
  | p :: rest, name, v =>
    if p.1 = name then (name, v) :: rest else p :: setAssoc rest name v

/-- JS object read `obj[name]` (`none` = `undefined` / key absent). -/
def getAssoc {α : Type} : List (String × α) → String → Option α
  | [], _ => none
  | p :: rest, name => if p.1 = name then some p.2 else getAssoc rest name

/-- Interpreter state: `this.stack` (its JS array end, the stack top, is
the list head), `this.variables` (`vars` here, since `variables` is a Lean
keyword), `this.functions`, `this.currentFunction`. -/
structure KState where
  stack : List Value
  vars : List (String × Value)
  functions : List (String × List (List String))
  currentFunction : Option String
deriving Repr, DecidableEq

/-- The error message of `opChen` on an empty stack:
the source text is `Stack underflow at Ch` + U+0027 + `en ` + name. -/
def chenUnderflowMsg (name : String) : String :=
  "Stack underflow at Ch" ++ String.singleton (Char.ofNat 39) ++ "en " ++ name

/-- `binaryOp(fn)`: underflow check, then `b = pop(); a = pop(); push(fn(a, b))`. -/
def binaryOp (fn : Value → Value → Value) (st : KState) : Except String KState :=
  match st.stack with
  | b :: a :: rest => .ok { st with stack := fn a b :: rest }
  | _ => .error "Stack underflow in binary operation"

/-- `unaryOp(fn)`: underflow check, then `a = pop(); push(fn(a))`. -/
def unaryOp (fn : Value → Value) (st : KState) : Except String KState :=
  match st.stack with
  | a :: rest => .ok { st with stack := fn a :: rest }
  | [] => .error "Stack underflow in unary operation"

/-- `opChen(name)` (store): underflow check, then pop and bind. -/
def opChen (name : String) (st : KState) : Except String KState :=
  match st.stack with
  | [] => .error (chenUnderflowMsg name)
  | v :: rest =>
    .ok { st with stack := rest, vars := setAssoc st.vars name v }

/-- `opYax(name)` (load): push the variable or fail. -/
def opYax (name : String) (st : KState) : Except String KState :=
  match getAssoc st.vars name with
  | some v => .ok { st with stack := v :: st.stack }
  | none => .error ("Variable " ++ name ++ " not defined")

/-- `opPop(name)`: start a function definition. -/
def opPop (name : String) (st : KState) : Except String KState :=
  .ok { st with currentFunction := some name,
                functions := setAssoc st.functions name [] }

/-- `opXul()`: end a function definition. -/
def opXul (st : KState) : Except String KState :=
  .ok { st with currentFunction := none }

/-- `opSek(operation)`.  `Math.random()` for the `rand` opcode is supplied
as the `randVal` parameter.  Note that `print` executes
`console.log(this.stack.pop())` with no underflow check: on an empty stack
the JS `pop` returns `undefined` and leaves the array empty. -/
def opSek (randVal : ℚ) (operation : String) (st : KState) : Except String KState :=
  match operation with
  | "add" => binaryOp jsAdd st
  | "sub" => binaryOp jsSub st
  | "mul" => binaryOp jsMul st
  | "div" => binaryOp jsDiv st
  | "gt" => binaryOp jsGt st
  | "lt" => binaryOp jsLt st
  | "gte" => binaryOp jsGte st
  | "lte" => binaryOp jsLte st
  | "eq" => binaryOp (fun a b => .bool (jsStrictEq a b)) st
  | "neq" => binaryOp (fun a b => .bool (!jsStrictEq a b)) st
  | "and" => binaryOp jsAnd st
  | "or" => binaryOp jsOr st
  | "not" => unaryOp jsNot st
  | "print" => .ok { st with stack := st.stack.tail }
  | "rand" => .ok { st with stack := .num randVal :: st.stack }
  | _ => .error ("Unknown operation: " ++ operation)

/-- The operations of `opSek` dispatched through `binaryOp` (each pops two
operands). -/
def binaryOpNames : List String :=
  ["add", "sub", "mul", "div", "gt", "lt", "gte", "lte", "eq", "neq", "and", "or"]

theorem binaryOp_underflow (fn : Value → Value → Value) (st : KState)
    (h : st.stack.length < 2) :
    binaryOp fn st = .error "Stack underflow in binary operation" := by
  obtain ⟨stack, vs, funcs, cf⟩ := st
  rcases stack with _ | ⟨x, _ | ⟨y, rest⟩⟩
  · rfl
  · rfl
  · exact absurd h (by simp)

theorem unaryOp_underflow (fn : Value → Value) (st : KState)
    (h : st.stack.length < 1) :
    unaryOp fn st = .error "Stack underflow in unary operation" := by
  obtain ⟨stack, vs, funcs, cf⟩ := st
  rcases stack with _ | ⟨x, rest⟩
  · rfl
  · exact absurd h (by simp)

end Kuhul

/-- C8 counterexample: the `print` operation pops an operand but performs
no underflow check: on an empty stack `opSek("print")` succeeds (JS pops
`undefined` and logs it) instead of failing with a stack-underflow error. -/
theorem kuhul_print_no_underflow_counterexample :
    Kuhul.opSek 0 "print" ⟨[], [], [], none⟩ = Except.ok ⟨[], [], [], none⟩ := rfl

/-- C8 amended: every binary operation (arithmetic, comparison, boolean),
the unary `not`, and the `store` opcode fail with a stack-underflow error
when the stack holds fewer values than they pop; `print`, however, pops
without any check and succeeds on an empty stack. -/
theorem kuhul_stack_underflow_amended (randVal : ℚ) (st : Kuhul.KState) :
    (∀ op ∈ Kuhul.binaryOpNames, st.stack.length < 2 →
      Kuhul.opSek randVal op st =
        Except.error "Stack underflow in binary operation") ∧
    (st.stack.length < 1 →
      Kuhul.opSek randVal "not" st =
        Except.error "Stack underflow in unary operation") ∧
    (∀ name, st.stack = [] →
      Kuhul.opChen name st = Except.error (Kuhul.chenUnderflowMsg name)) ∧
    (st.stack = [] → Kuhul.opSek randVal "print" st = Except.ok st) := by
  refine ⟨?_, ?_, ?_, ?_⟩
  · intro op hop hlen
    fin_cases hop <;> exact Kuhul.binaryOp_underflow _ st hlen
  · intro hlen
    exact Kuhul.unaryOp_underflow _ st hlen
  · intro name hst
    obtain ⟨stack, vs, funcs, cf⟩ := st
    have hstack : stack = [] := hst
    subst hstack
    rfl
  · intro hst
    obtain ⟨stack, vs, funcs, cf⟩ := st
    have hstack : stack = [] := hst
    subst hstack
    rfl

/-- Witness for C8 (amended): concrete underflows on the empty stack. -/
theorem kuhul_stack_underflow_amended_witness :
    Kuhul.opSek 0 "add" ⟨[], [], [], none⟩ =
      Except.error "Stack underflow in binary operation" ∧
    Kuhul.opSek 0 "not" ⟨[], [], [], none⟩ =
      Except.error "Stack underflow in unary operation" ∧
    Kuhul.opChen "x" ⟨[], [], [], none⟩ =
      Except.error (Kuhul.chenUnderflowMsg "x") ∧
    Kuhul.opSek 0 "print" ⟨([] : List Kuhul.Value), [], [], none⟩ =
      Except.ok ⟨[], [], [], none⟩ :=
  ⟨(kuhul_stack_underflow_amended 0 ⟨[], [], [], none⟩).1 "add"
      (by simp [Kuhul.binaryOpNames]) (by simp),
   (kuhul_stack_underflow_amended 0 ⟨[], [], [], none⟩).2.1 (by simp),
   (kuhul_stack_underflow_amended 0 ⟨[], [], [], none⟩).2.2.1 "x" rfl,
   (kuhul_stack_underflow_amended 0 ⟨[], [], [], none⟩).2.2.2 rfl⟩

/- ===============================================================
   Ghost handlers: src/unnamed/part_008 (tape registry)
   =============================================================== -/

namespace Ghost

/-- A parsed `tape.json`.  Only the fields the ghost handlers read are
modelled.  `id := none` covers both a missing and an empty id (both falsy
in the key choice `tapeData.id || entry.name`). -/
structure TapeData where
  id : Option String
  name : String
  version : String
  description : String
  runtime : String
  agents : List String
  blocks : List String
deriving Repr, DecidableEq

/-- One immediate subdirectory of the tapes directory, as seen by
`loadTapes`; `tape` is the parsed `tape.json` when the file exists and
parses (readdir entries that are not directories are not listed). -/
structure TapeDir where
  dirName : String
  tape : Option TapeData
deriving Repr, DecidableEq

/-- A registry value: the spread tape data plus the added `path` field. -/
structure RegEntry where
  data : TapeData
  path : String
deriving Repr, DecidableEq

/-- The `tapeRegistry` map (JS `Map`: string keys in insertion order,
`set` overwrites in place). -/
abbrev Registry := List (String × RegEntry)

/-- The registry-building loop inside `loadTapes`: for each directory with
a parsable `tape.json`, `tapeRegistry.set(tapeData.id || entry.name,
{...tapeData, path: path.join(TAPES_DIR, entry.name)})`. -/
def scanTapes (tapesDir : String) (entries : List TapeDir) : Registry :=
  entries.foldl
    (fun reg d =>
      match d.tape with
      | none => reg
      | some td =>
        Kuhul.setAssoc reg (td.id.getD d.dirName)
          { data := td, path := tapesDir ++ "/" ++ d.dirName })
    []

/-- `loadTapes()`: `if (!tapeRegistry) { tapeRegistry = new Map(); ...scan... }
return tapeRegistry`.  The module-global `tapeRegistry` is passed and
returned explicitly (`none` = the JS `null`). -/
def loadTapes (cache : Option Registry) (tapesDir : String)
    (entries : List TapeDir) : Registry × Option Registry :=
  match cache with
  | some r => (r, some r)
  | none =>
    let r := scanTapes tapesDir entries
    (r, some r)

/-- The per-tape summary produced by `ghost_list`. -/
structure TapeSummary where
  id : Option String
  name : String
  version : String
  description : String
  runtime : String
  agents : Nat
  blocks : Nat
deriving Repr, DecidableEq

structure ListResult where
  total : Nat
  tapes : List TapeSummary
deriving Repr, DecidableEq

def summarize (e : RegEntry) : TapeSummary :=
  { id := e.data.id, name := e.data.name, version := e.data.version,
    description := e.data.description, runtime := e.data.runtime,
    agents := e.data.agents.length, blocks := e.data.blocks.length }

/-- Handler `ghost_list`. -/
def ghost_list (cache : Option Registry) (tapesDir : String)
    (entries : List TapeDir) : ListResult × Option Registry :=
  let p := loadTapes cache tapesDir entries
  ({ total := p.1.length, tapes := p.1.map (fun q => summarize q.2) }, p.2)

/-- Result of `ghost_get` (`none` fields are absent on the other path). -/
structure GetResult where
  success : Option Bool
  tape : Option RegEntry
  tape_id : String
  error : Option String
  available : Option (List String)
deriving Repr, DecidableEq

/-- Handler `ghost_get`. -/
def ghost_get (tape_id : String) (cache : Option Registry) (tapesDir : String)
    (entries : List TapeDir) : GetResult × Option Registry :=
  let p := loadTapes cache tapesDir entries
  match Kuhul.getAssoc p.1 tape_id with
  | none =>
    ({ success := none, tape := none, tape_id := tape_id,
       error := some "Tape not found", available := some (p.1.map (fun q => q.1)) }, p.2)
  | some t =>
    ({ success := some true, tape := some t, tape_id := tape_id,
       error := none, available := none }, p.2)

/-- Result of `ghost_launch` (the echoed `context` is omitted). -/
structure LaunchResult where
  success : Option Bool
  session_id : Option String
  tape_id : String
  tape_name : Option String
  status : Option String
  error : Option String
deriving Repr, DecidableEq

/-- Handler `ghost_launch`; the generated
session id (wall clock and randomness) is supplied as `sessionId`. -/
def ghost_launch (sessionId : String) (tape_id : String) (cache : Option Registry)
    (tapesDir : String) (entries : List TapeDir) : LaunchResult × Option Registry :=
  let p := loadTapes cache tapesDir entries
  match Kuhul.getAssoc p.1 tape_id with
  | none =>
    ({ success := none, session_id := none, tape_id := tape_id,
       tape_name := none, status := none, error := some "Tape not found" }, p.2)
  | some t =>
    ({ success := some true, session_id := some sessionId, tape_id := tape_id,
       tape_name := some t.data.name, status := some "launched", error := none }, p.2)

/-- Result of `ghost_route` (mock routing; the echoed payload is omitted,
`message` is `response.message`). -/
structure RouteResult where
  tape_id : String
  endpoint : Option String
  method : Option String
  message : Option String
  error : Option String
deriving Repr, DecidableEq

/-- Handler `ghost_route`. -/
def ghost_route (tape_id endpoint method : String) (cache : Option Registry)
    (tapesDir : String) (entries : List TapeDir) : RouteResult × Option Registry :=
  let p := loadTapes cache tapesDir entries
  match Kuhul.getAssoc p.1 tape_id with
  | none =>
    ({ tape_id := tape_id, endpoint := none, method := none,
       message := none, error := some "Tape not found" }, p.2)
  | some t =>
    ({ tape_id := tape_id, endpoint := some endpoint, method := some method,
       message := some ("Routed to " ++ t.data.name), error := none }, p.2)

structure DiscoverResult where
  discovered : Nat
  tapes : List String
  timestamp : Nat
deriving Repr, DecidableEq

/-- Handler `ghost_discover`: `if (rescan) tapeRegistry = null` then
`loadTapes()`.  `now` supplies `Date.now()`. -/
def ghost_discover (rescan : Bool) (now : Nat) (cache : Option Registry)
    (tapesDir : String) (entries : List TapeDir) : DiscoverResult × Option Registry :=
  let cache0 := if rescan then none else cache
  let p := loadTapes cache0 tapesDir entries
  ({ discovered := p.1.length, tapes := p.1.map (fun q => q.1),
     timestamp := now }, p.2)

/-- One element of the `ghost_swarm` results array. -/
structure SwarmItem where
  tape_id : String
  tape_name : Option String
  status : Option String
  result : Option String
  error : Option String
deriving Repr, DecidableEq

/-- Result of `ghost_swarm` (the echoed `task` and `mode` are omitted). -/
structure SwarmResult where
  total_tapes : Nat
  results : List SwarmItem
deriving Repr, DecidableEq

/-- Handler `ghost_swarm`. -/
def ghost_swarm (tapes : List String) (cache : Option Registry)
    (tapesDir : String) (entries : List TapeDir) : SwarmResult × Option Registry :=
  let p := loadTapes cache tapesDir entries
  ({ total_tapes := tapes.length,
     results := tapes.map (fun tid =>
       match Kuhul.getAssoc p.1 tid with
       | none =>
         { tape_id := tid, tape_name := none, status := none,
           result := none, error := some "Tape not found" }
       | some t =>
         { tape_id := tid, tape_name := some t.data.name,
           status := some "completed",
           result := some (t.data.name ++ " processed task"), error := none }) },
   p.2)

structure StatusResult where
  protocol : String
  status : String
  tapes_loaded : Nat
  tapes_dir : String
deriving Repr, DecidableEq

/-- Handler `ghost_status` (the static `features` array is omitted). -/
def ghost_status (cache : Option Registry) (tapesDir : String)
    (entries : List TapeDir) : StatusResult × Option Registry :=
  let p := loadTapes cache tapesDir entries
  ({ protocol := "GHOST v3", status := "online", tapes_loaded := p.1.length,
     tapes_dir := tapesDir }, p.2)

end Ghost

/-- C10: the tape registry is built lazily at most once: a cache hit serves
the cached registry without reading the tape directory, so every `ghost_*`
handler result is independent of the directory contents once the cache is
populated (directory changes are invisible), and the cache is preserved;
`ghost_discover` with `rescan = true` clears the cache and re-reads the
directory, and the first load populates the cache with the scan result. -/
theorem ghost_registry_lazy_cache (r : Ghost.Registry) (tapesDir : String)
    (entries entries2 : List Ghost.TapeDir) (now : Nat)
    (tapeId sessionId endpoint method : String) (tapeIds : List String)
    (cache : Option Ghost.Registry) :
    Ghost.loadTapes (some r) tapesDir entries = (r, some r) ∧
    Ghost.loadTapes none tapesDir entries =
      (Ghost.scanTapes tapesDir entries, some (Ghost.scanTapes tapesDir entries)) ∧
    Ghost.ghost_list (some r) tapesDir entries =
      Ghost.ghost_list (some r) tapesDir entries2 ∧
    Ghost.ghost_get tapeId (some r) tapesDir entries =
      Ghost.ghost_get tapeId (some r) tapesDir entries2 ∧
    Ghost.ghost_launch sessionId tapeId (some r) tapesDir entries =
      Ghost.ghost_launch sessionId tapeId (some r) tapesDir entries2 ∧
    Ghost.ghost_route tapeId endpoint method (some r) tapesDir entries =
      Ghost.ghost_route tapeId endpoint method (some r) tapesDir entries2 ∧
    Ghost.ghost_swarm tapeIds (some r) tapesDir entries =
      Ghost.ghost_swarm tapeIds (some r) tapesDir entries2 ∧
    Ghost.ghost_status (some r) tapesDir entries =
      Ghost.ghost_status (some r) tapesDir entries2 ∧
    Ghost.ghost_discover false now (some r) tapesDir entries =
      Ghost.ghost_discover false now (some r) tapesDir entries2 ∧
    (Ghost.ghost_list (some r) tapesDir entries).2 = some r ∧
    Ghost.ghost_discover true now cache tapesDir entries =
      ({ discovered := (Ghost.scanTapes tapesDir entries).length,
         tapes := (Ghost.scanTapes tapesDir entries).map (fun q => q.1),
         timestamp := now },
       some (Ghost.scanTapes tapesDir entries)) :=
  ⟨rfl, rfl, rfl, rfl, rfl, rfl, rfl, rfl, rfl, rfl, rfl⟩

/- ===============================================================
   HTTP surface: src/unnamed/part_006 (/xjson/run branch)
   =============================================================== -/

namespace Server

/-- The JSON body emitted by the `/xjson/run` branch (and the surrounding
catch), one field per key that some path emits; `none` marks a key absent
from the emitted object.  No path of part_006 writes a `backend` key; the
field exists here so that absence is statable. -/
structure RunResponse (β : Type) where
  status : Nat
  ok : Bool
  result : Option β
  error : Option String
  available : Option (List String)
  backend : Option String
deriving Repr, DecidableEq

/-- The `/xjson/run` branch of the request listener:
`if (!type || !handlers[type])` answer 400
`{ok: false, error: "Unknown program type", available}`; otherwise run the
handler and answer 200 `{ok: true, result}`.  A handler that throws is
caught by the surrounding try/catch, which answers 500
`{ok: false, error: err.message}`. -/
def xjsonRun {α β : Type} (handlers : List (String × (α → Except String β)))
    (programType : Option String) (input : α) : RunResponse β :=
  match programType with
  | none =>
    { status := 400, ok := false, result := none,
      error := some "Unknown program type",
      available := some (handlers.map (fun h => h.1)), backend := none }
  | some t =>
    match Kuhul.getAssoc handlers t with
    | none =>
      { status := 400, ok := false, result := none,
        error := some "Unknown program type",
        available := some (handlers.map (fun h => h.1)), backend := none }
    | some handler =>
      match handler input with
      | .ok res =>
        { status := 200, ok := true, result := some res,
          error := none, available := none, backend := none }
      | .error msg =>
        { status := 500, ok := false, result := none,
          error := some msg, available := none, backend := none }

end Server

/-- C4 counterexample: a served `ping` request answers `{ok: true, result}`
with no `backend` key, and the unknown-type path answers with no `backend`
key either — the response envelope carries zero backend tags, not exactly
one. -/
theorem server_backend_tag_counterexample :
    (Server.xjsonRun [("ping", fun (_ : Unit) => Except.ok "pong")]
        (some "ping") ()).ok = true ∧
    (Server.xjsonRun [("ping", fun (_ : Unit) => Except.ok "pong")]
        (some "ping") ()).backend = none ∧
    (Server.xjsonRun [("ping", fun (_ : Unit) => Except.ok "pong")]
        (some "nope") ()).ok = false ∧
    (Server.xjsonRun [("ping", fun (_ : Unit) => Except.ok "pong")]
        (some "nope") ()).backend = none :=
  ⟨rfl, rfl, rfl, rfl⟩

/-- C4 amended: no response of the `/xjson/run` endpoint contains a backend
tag; the `ok: true` path carries the handler result, the unknown-type path
answers 400 with `"Unknown program type"` and the list of handler names,
and a thrown handler error answers 500 with the error message. -/
theorem server_no_backend_tag_amended {α β : Type}
    (handlers : List (String × (α → Except String β)))
    (programType : Option String) (input : α) :
    (Server.xjsonRun handlers programType input).backend = none ∧
    (programType = none →
      Server.xjsonRun handlers programType input =
        { status := 400, ok := false, result := none,
          error := some "Unknown program type",
          available := some (handlers.map (fun h => h.1)), backend := none }) ∧
    (∀ t, programType = some t → Kuhul.getAssoc handlers t = none →
      Server.xjsonRun handlers programType input =
        { status := 400, ok := false, result := none,
          error := some "Unknown program type",
          available := some (handlers.map (fun h => h.1)), backend := none }) ∧
    (∀ t handler res, programType = some t →
      Kuhul.getAssoc handlers t = some handler → handler input = .ok res →
      Server.xjsonRun handlers programType input =
        { status := 200, ok := true, result := some res,
          error := none, available := none, backend := none }) ∧
    (∀ t handler msg, programType = some t →
      Kuhul.getAssoc handlers t = some handler → handler input = .error msg →
      Server.xjsonRun handlers programType input =
        { status := 500, ok := false, result := none,
          error := some msg, available := none, backend := none }) := by
  refine ⟨?_, ?_, ?_, ?_, ?_⟩
  · cases programType with
    | none => rfl
    | some t =>
      cases hg : Kuhul.getAssoc handlers t with
      | none => simp [Server.xjsonRun, hg]
      | some handler =>
        cases hh : handler input with
        | ok res => simp [Server.xjsonRun, hg, hh]
        | error msg => simp [Server.xjsonRun, hg, hh]
  · intro h; subst h; rfl
  · intro t h hg; subst h; simp [Server.xjsonRun, hg]
  · intro t handler res h hg hh; subst h; simp [Server.xjsonRun, hg, hh]
  · intro t handler msg h hg hh; subst h; simp [Server.xjsonRun, hg, hh]

/-- Witness for C4 (amended): concrete requests exercising every path. -/
theorem server_no_backend_tag_amended_witness :
    (Server.xjsonRun [("ping", fun (_ : Unit) => Except.ok "pong")]
        (some "ping") ()).backend = none ∧
    Server.xjsonRun [("ping", fun (_ : Unit) => Except.ok "pong")] none () =
      { status := 400, ok := false, result := none,
        error := some "Unknown program type",
        available := some ["ping"], backend := none } ∧
    Server.xjsonRun [("ping", fun (_ : Unit) => Except.ok "pong")] (some "nope") () =
      { status := 400, ok := false, result := none,
        error := some "Unknown program type",
        available := some ["ping"], backend := none } ∧
    Server.xjsonRun [("ping", fun (_ : Unit) => Except.ok "pong")] (some "ping") () =
      { status := 200, ok := true, result := some "pong",
        error := none, available := none, backend := none } ∧
    Server.xjsonRun
        [("boom", fun (_ : Unit) => (Except.error "kaput" : Except String String))]
        (some "boom") () =
      { status := 500, ok := false, result := none,
        error := some "kaput", available := none, backend := none } :=
  ⟨(server_no_backend_tag_amended [("ping", fun _ => Except.ok "pong")]
      (some "ping") ()).1,
   (server_no_backend_tag_amended [("ping", fun _ => Except.ok "pong")]
      none ()).2.1 rfl,
   (server_no_backend_tag_amended [("ping", fun _ => Except.ok "pong")]
      (some "nope") ()).2.2.1 "nope" rfl rfl,
   (server_no_backend_tag_amended [("ping", fun _ => Except.ok "pong")]
      (some "ping") ()).2.2.2.1 "ping" _ "pong" rfl rfl rfl,
   (server_no_backend_tag_amended
      [("boom", fun _ => (Except.error "kaput" : Except String String))]
      (some "boom") ()).2.2.2.2 "boom" _ "kaput" rfl rfl rfl⟩

/- ===============================================================
   eval_expr: src/xjson-server/handlers/core.js
   =============================================================== -/

namespace EvalExpr

/-- JS values reachable in `eval_expr`; `obj tag` stands for a host object
(such as `Math`, `Date`, `process`) identified by its access path. -/
inductive JsVal where
  | num (q : ℚ)
  | str (s : String)
  | bool (b : Bool)
  | jsUndefined
  | obj (tag : String)
deriving Repr, DecidableEq

/-- Expressions the generated `return <expression>` body can contain: the
language is full JavaScript; this model keeps the fragment needed below
(literals, identifiers, member access, addition). -/
inductive Expr where
  | lit (v : JsVal)
  | ident (name : String)
  | member (e : Expr) (field : String)
  | add (a b : Expr)
deriving Repr, DecidableEq

/-- JS `a + b` on the modelled values (coercion corners collapse to
`jsUndefined`; no theorem below reaches them). -/
def jsAddVal : JsVal → JsVal → JsVal
  | .num a, .num b => .num (a + b)
  | .str a, .str b => .str (a ++ b)
  | _, _ => .jsUndefined

/-- Identifier resolution inside the `new Function` body: the parameter
names (the `safeContext` keys) shadow the enclosing realm; every other
identifier resolves against the JS global object, modelled by
`globalsCtx`. -/
def lookupScope (globalsCtx safeCtx : List (String × JsVal)) (name : String) :
    Option JsVal :=
  match Kuhul.getAssoc safeCtx name with
  | some v => some v
  | none => Kuhul.getAssoc globalsCtx name

/-- Evaluation of the function body (errors become thrown exceptions). -/
def evalBody (globalsCtx safeCtx : List (String × JsVal)) : Expr → Except String JsVal
  | .lit v => .ok v
  | .ident name =>
    match lookupScope globalsCtx safeCtx name with
    | some v => .ok v
    | none => .error (name ++ " is not defined")
  | .member e f =>
    match evalBody globalsCtx safeCtx e with
    | .error msg => .error msg
    | .ok (.obj tag) => .ok (.obj (tag ++ "." ++ f))
    | .ok .jsUndefined => .error "Cannot read properties of undefined"
    | .ok _ => .ok .jsUndefined
  | .add a b =>
    match evalBody globalsCtx safeCtx a with
    | .error m => .error m
    | .ok x =>
      match evalBody globalsCtx safeCtx b with
      | .error m => .error m
      | .ok y => .ok (jsAddVal x y)

/-- The result object of the `eval_expr` handler. -/
structure EvalResult where
  success : Bool
  result : Option JsVal
  error : Option String
deriving Repr, DecidableEq

/-- The handler `eval_expr`: build `safeContext = {Math, Date, ...context}`
(later spread keys win, hence `context` is consulted first here) and run
`new Function(...keys, "return " + expression)(...values)`; a thrown error
is caught and returned as `{error: err.message, success: false}`.  The
handler contains no grammar check and no expression-rejected error path. -/
def eval_expr (globalsCtx context : List (String × JsVal)) (expression : Expr) :
    EvalResult :=
  let safeContext := context ++ [("Math", JsVal.obj "Math"), ("Date", JsVal.obj "Date")]
  match evalBody globalsCtx safeContext expression with
  | .ok v => { success := true, result := some v, error := none }
  | .error msg => { success := false, result := none, error := some msg }

theorem notDefined_ne (n : String) :
    n ++ " is not defined" ≠ "expression-rejected" := by
  intro h
  have hd : n.data ++ (" is not defined").data = ("expression-rejected").data := by
    rw [← String.data_append, h]
  have hlen : n.data.length + 15 = 19 := by
    have hc := congrArg List.length hd
    simpa using hc
  have h4 : n.data.length = 4 := by omega
  have hsplit : ("expression-rejected").data =
      ("expression-rejected").data.take 4 ++ ("expression-rejected").data.drop 4 :=
    (List.take_append_drop 4 _).symm
  rw [hsplit] at hd
  have hsuffix := (List.append_inj hd (by rw [h4]; decide)).2
  exact absurd hsuffix (by decide)

theorem evalBody_never_rejected (globalsCtx safeCtx : List (String × JsVal)) :
    ∀ e : Expr, evalBody globalsCtx safeCtx e ≠ .error "expression-rejected" := by
  intro e
  induction e with
  | lit v => simp [evalBody]
  | ident name =>
    cases hl : lookupScope globalsCtx safeCtx name with
    | none =>
      simp only [evalBody, hl]
      intro h
      exact notDefined_ne name (Except.error.inj h)
    | some v => simp [evalBody, hl]
  | member e f ih =>
    cases he : evalBody globalsCtx safeCtx e with
    | error msg =>
      simp only [evalBody, he]
      intro h
      exact ih (he.trans (congrArg Except.error (Except.error.inj h)))
    | ok v =>
      cases v <;> simp [evalBody, he]
  | add a b iha ihb =>
    cases ha : evalBody globalsCtx safeCtx a with
    | error m =>
      simp only [evalBody, ha]
      intro h
      exact iha (ha.trans (congrArg Except.error (Except.error.inj h)))
    | ok x =>
      cases hb : evalBody globalsCtx safeCtx b with
      | error m =>
        simp only [evalBody, ha, hb]
        intro h
        exact ihb (hb.trans (congrArg Except.error (Except.error.inj h)))
      | ok y => simp [evalBody, ha, hb]

end EvalExpr

/-- C3: `eval_expr` evaluates the expression with full JavaScript scope and
never produces an expression-rejected error: the out-of-allow-list global
identifier `process` resolves and `process.platform` evaluates with
`success: true`, and no input whatsoever yields the error
`"expression-rejected"`. -/
theorem eval_expr_no_grammar_restriction :
    EvalExpr.eval_expr [("process", EvalExpr.JsVal.obj "process")] []
        (EvalExpr.Expr.member (EvalExpr.Expr.ident "process") "platform") =
      { success := true, result := some (EvalExpr.JsVal.obj "process.platform"),
        error := none } ∧
    ∀ (globalsCtx context : List (String × EvalExpr.JsVal)) (e : EvalExpr.Expr),
      (EvalExpr.eval_expr globalsCtx context e).error ≠ some "expression-rejected" := by
  refine ⟨rfl, ?_⟩
  intro globalsCtx context e
  show (match EvalExpr.evalBody globalsCtx
      (context ++ [("Math", EvalExpr.JsVal.obj "Math"), ("Date", EvalExpr.JsVal.obj "Date")]) e with
    | .ok v =>
      ({ success := true, result := some v, error := none } : EvalExpr.EvalResult)
    | .error msg =>
      ({ success := false, result := none, error := some msg } :
        EvalExpr.EvalResult)).error ≠ some "expression-rejected"
  cases hb : EvalExpr.evalBody globalsCtx
      (context ++ [("Math", EvalExpr.JsVal.obj "Math"), ("Date", EvalExpr.JsVal.obj "Date")]) e with
  | ok v => simp
  | error msg =>
    intro h
    have hm : msg = "expression-rejected" := by simpa using h
    exact EvalExpr.evalBody_never_rejected _ _ e (hb.trans (by rw [hm]))

/- ===============================================================
   Sandboxed filesystem handlers: src/unnamed/part_004
   =============================================================== -/

namespace SandboxFs

/-- Split a POSIX path into components; empty components from doubled or
trailing separators are dropped, as `path.resolve` normalisation does. -/
def splitCompsAux : List Char → List Char → List (List Char)
  | [], cur => if cur.isEmpty then [] else [cur.reverse]
  | c :: cs, cur =>
    if c = '/' then
      if cur.isEmpty then splitCompsAux cs []
      else cur.reverse :: splitCompsAux cs []
    else splitCompsAux cs (c :: cur)

def splitComps (s : List Char) : List (List Char) := splitCompsAux s []

/-- Process `.` and `..` components the way `path.resolve` normalises an
absolute path (`..` above the root stays at the root).  `acc` holds the
kept components in reverse. -/
def normComps : List (List Char) → List (List Char) → List (List Char)
  | acc, [] => acc.reverse
  | acc, c :: cs =>
    if c = ['.'] then normComps acc cs
    else if c = ['.', '.'] then normComps acc.tail cs
    else normComps (c :: acc) cs

def renderAbs (comps : List (List Char)) : List Char :=
  '/' :: List.intercalate ['/'] comps

/-- Node `path.resolve(base, p)` for an absolute `base`: start from `p`
when it is absolute, otherwise join `base` and `p`; then normalise and
render. -/
def resolveChars (base p : List Char) : List Char :=
  if p.head? = some '/' then renderAbs (normComps [] (splitComps p))
  else renderAbs (normComps [] (splitComps base ++ splitComps p))

def resolve (base p : String) : String := String.mk (resolveChars base.data p.data)

/-- The guard `safePath` of part_004: resolve the input against `BASE_DIR`
and throw unless the resolved string *starts with* `BASE_DIR`
(`resolved.startsWith(BASE_DIR)`). -/
def safePath (baseDir : String) (inputPath : String) : Except String String :=
  let resolved := resolve baseDir inputPath
  if baseDir.data.isPrefixOf resolved.data then .ok resolved
  else .error "Access denied: Path outside allowed directory"

/-- Containment in the sandbox root as the claim reads it: the resolved
path is the root itself or lies strictly below it (root plus separator is
a prefix).  This is a spec-side definition, to be compared with the
string-prefix test `safePath` performs. -/
def insideRoot (root p : String) : Bool :=
  p = root || (root.data ++ ['/']).isPrefixOf p.data

/-- Abstract filesystem: a finite map from absolute paths to file
contents.  The fs-extra primitives the handlers use are modelled as
lookups and updates on this map; directories exist through the files
below them. -/
abbrev FsEnv := List (String × String)

/-- A directory exists when some file lies strictly below it. -/
def dirExists (env : FsEnv) (dir : String) : Bool :=
  env.any (fun q => (dir.data ++ ['/']).isPrefixOf q.1.data)

/-- `fs.pathExists`: a file or a directory. -/
def pathDoesExist (env : FsEnv) (p : String) : Bool :=
  (Kuhul.getAssoc env p).isSome || dirExists env p

/-- First path component of `q` below directory `dir`, when `q` lies below
`dir` (used to model `fs.readdir`). -/
def childFirstComp (dir q : String) : Option String :=
  if (dir.data ++ ['/']).isPrefixOf q.data then
    some (String.mk ((q.data.drop (dir.data.length + 1)).takeWhile (fun c => c ≠ '/')))
  else none

/-- `fs.readdir(dir)`: the distinct immediate child names. -/
def readdir (env : FsEnv) (dir : String) : List String :=
  (env.filterMap (fun q => childFirstComp dir q.1)).dedup

/-- Result of `fs_read` (`modified` is omitted; `none` fields are absent
from the emitted object). -/
structure ReadResult where
  success : Option Bool
  path : String
  content : Option String
  size : Option Nat
  error : Option String
deriving Repr, DecidableEq

/-- Handler `fs_read`. -/
def fs_read (baseDir : String) (env : FsEnv) (inputPath : String) : ReadResult :=
  match safePath baseDir inputPath with
  | .error msg =>
    { success := none, path := inputPath, content := none, size := none,
      error := some msg }
  | .ok safe =>
    match Kuhul.getAssoc env safe with
    | none =>
      { success := none, path := inputPath, content := none, size := none,
        error := some "File not found" }
    | some content =>
      { success := some true, path := inputPath, content := some content,
        size := some content.length, error := none }

structure WriteResult where
  success : Option Bool
  path : String
  size : Option Nat
  error : Option String
deriving Repr, DecidableEq

/-- Handler `fs_write` (`ensureFile` + `writeFile`): returns the result and
the updated filesystem. -/
def fs_write (baseDir : String) (env : FsEnv) (inputPath content : String) :
    WriteResult × FsEnv :=
  match safePath baseDir inputPath with
  | .error msg =>
    ({ success := none, path := inputPath, size := none, error := some msg }, env)
  | .ok safe =>
    ({ success := some true, path := inputPath, size := some content.length,
       error := none }, Kuhul.setAssoc env safe content)

/-- Result of `fs_list` (the per-item stat details are reduced to names). -/
structure DirListResult where
  success : Option Bool
  path : String
  items : Option (List String)
  error : Option String
deriving Repr, DecidableEq

/-- Handler `fs_list`. -/
def fs_list (baseDir : String) (env : FsEnv) (inputPath : String) : DirListResult :=
  match safePath baseDir inputPath with
  | .error msg =>
    { success := none, path := inputPath, items := none, error := some msg }
  | .ok safe =>
    if pathDoesExist env safe then
      { success := some true, path := inputPath, items := some (readdir env safe),
        error := none }
    else
      { success := none, path := inputPath, items := none,
        error := some "Directory not found" }

/-- Result of `fs_exists` (the JS `type: null` and the error path both
appear as `type := none`). -/
structure ExistsResult where
  exists? : Option Bool
  path : String
  type : Option String
  error : Option String
deriving Repr, DecidableEq

/-- Handler `fs_exists`. -/
def fs_exists (baseDir : String) (env : FsEnv) (inputPath : String) : ExistsResult :=
  match safePath baseDir inputPath with
  | .error msg =>
    { exists? := none, path := inputPath, type := none, error := some msg }
  | .ok safe =>
    if (Kuhul.getAssoc env safe).isSome then
      { exists? := some true, path := inputPath, type := some "file", error := none }
    else if dirExists env safe then
      { exists? := some true, path := inputPath, type := some "directory", error := none }
    else
      { exists? := some false, path := inputPath, type := none, error := none }

structure DeleteResult where
  success : Option Bool
  path : String
  error : Option String
deriving Repr, DecidableEq

/-- Handler `fs_delete` (`fs.remove` removes the file or the whole
directory subtree). -/
def fs_delete (baseDir : String) (env : FsEnv) (inputPath : String) :
    DeleteResult × FsEnv :=
  match safePath baseDir inputPath with
  | .error msg =>
    ({ success := none, path := inputPath, error := some msg }, env)
  | .ok safe =>
    if pathDoesExist env safe then
      ({ success := some true, path := inputPath, error := none },
       env.filter (fun q =>
         !(q.1 = safe || (safe.data ++ ['/']).isPrefixOf q.1.data)))
    else
      ({ success := none, path := inputPath, error := some "Path not found" }, env)

/-- Result of `fs_copy` (`from`/`to` are Lean keywords, hence
`fromPath`/`toPath`). -/
structure CopyResult where
  success : Option Bool
  fromPath : String
  toPath : String
  error : Option String
deriving Repr, DecidableEq

/-- Handler `fs_copy` (file copy; the recursive directory copy of
`fs.copy` is not modelled — no theorem below depends on it). -/
def fs_copy (baseDir : String) (env : FsEnv) (fromPath toPath : String) :
    CopyResult × FsEnv :=
  match safePath baseDir fromPath with
  | .error msg =>
    ({ success := none, fromPath := fromPath, toPath := toPath,
       error := some msg }, env)
  | .ok safeFrom =>
    match safePath baseDir toPath with
    | .error msg =>
      ({ success := none, fromPath := fromPath, toPath := toPath,
         error := some msg }, env)
    | .ok safeTo =>
      match Kuhul.getAssoc env safeFrom with
      | none =>
        ({ success := none, fromPath := fromPath, toPath := toPath,
           error := some "Source not found" }, env)
      | some content =>
        ({ success := some true, fromPath := fromPath, toPath := toPath,
           error := none }, Kuhul.setAssoc env safeTo content)

/-- Result of `fs_json_read`; `γ` is the parsed-JSON type, and the
`JSON.parse` step is supplied as the `parse` argument of the handler. -/
structure JsonReadResult (γ : Type) where
  success : Option Bool
  path : String
  data : Option γ
  error : Option String
deriving Repr, DecidableEq

/-- Handler `fs_json_read` (`fs.readJson`): read then parse; a missing file
or a parse failure is a thrown error caught by the handler. -/
def fs_json_read {γ : Type} (parse : String → Option γ) (baseDir : String)
    (env : FsEnv) (inputPath : String) : JsonReadResult γ :=
  match safePath baseDir inputPath with
  | .error msg =>
    { success := none, path := inputPath, data := none, error := some msg }
  | .ok safe =>
    match Kuhul.getAssoc env safe with
    | none =>
      { success := none, path := inputPath, data := none,
        error := some "ENOENT: no such file or directory" }
    | some content =>
      match parse content with
      | none =>
        { success := none, path := inputPath, data := none,
          error := some "Unexpected token in JSON" }
      | some d =>
        { success := some true, path := inputPath, data := some d, error := none }

structure JsonWriteResult where
  success : Option Bool
  path : String
  error : Option String
deriving Repr, DecidableEq

/-- Handler `fs_json_write` (`ensureFile` + `writeJson`); the
`JSON.stringify` step is supplied as `stringify`. -/
def fs_json_write {γ : Type} (stringify : γ → String) (baseDir : String)
    (env : FsEnv) (inputPath : String) (data : γ) : JsonWriteResult × FsEnv :=
  match safePath baseDir inputPath with
  | .error msg =>
    ({ success := none, path := inputPath, error := some msg }, env)
  | .ok safe =>
    ({ success := some true, path := inputPath, error := none },
     Kuhul.setAssoc env safe (stringify data))

theorem safePath_escape (baseDir inputPath : String)
    (h : baseDir.data.isPrefixOf (resolve baseDir inputPath).data = false) :
    safePath baseDir inputPath =
      .error "Access denied: Path outside allowed directory" := by
  unfold safePath
  simp [h]

theorem safePath_ok (baseDir inputPath : String)
    (h : baseDir.data.isPrefixOf (resolve baseDir inputPath).data = true) :
    safePath baseDir inputPath = .ok (resolve baseDir inputPath) := by
  unfold safePath
  simp [h]

end SandboxFs

/-- C1 counterexample: with sandbox root `/app/asx`, the input
`../asx-evil/pwned` resolves to `/app/asx-evil/pwned`, which does *not*
lie inside the root, yet `resolved.startsWith(BASE_DIR)` succeeds (sibling
directory sharing the string prefix), so `safePath` accepts it and
`fs_read` reads the file outside the sandbox instead of rejecting the
call. -/
theorem sandbox_fs_escape_counterexample :
    SandboxFs.safePath "/app/asx" "../asx-evil/pwned" =
      Except.ok "/app/asx-evil/pwned" ∧
    SandboxFs.insideRoot "/app/asx" "/app/asx-evil/pwned" = false ∧
    SandboxFs.fs_read "/app/asx" [("/app/asx-evil/pwned", "secret")]
        "../asx-evil/pwned" =
      { success := some true, path := "../asx-evil/pwned",
        content := some "secret", size := some 6, error := none } :=
  ⟨rfl, rfl, rfl⟩

/-- C1 amended: every `fs_*` handler uses exactly the input path resolved
against the sandbox root, and rejects the call with the access-denied
error — touching no filesystem state — whenever the resolved path does not
have the root as a *string prefix*; the string-prefix test, however, also
admits sibling paths that merely share the prefix without lying inside the
root. -/
theorem sandbox_fs_prefix_guard_amended (baseDir : String) (env : SandboxFs.FsEnv)
    (p : String)
    (h : baseDir.data.isPrefixOf (SandboxFs.resolve baseDir p).data = false) :
    SandboxFs.safePath baseDir p =
      Except.error "Access denied: Path outside allowed directory" ∧
    (∀ q, baseDir.data.isPrefixOf (SandboxFs.resolve baseDir q).data = true →
      SandboxFs.safePath baseDir q = Except.ok (SandboxFs.resolve baseDir q)) ∧
    SandboxFs.fs_read baseDir env p =
      { success := none, path := p, content := none, size := none,
        error := some "Access denied: Path outside allowed directory" } ∧
    (∀ content, SandboxFs.fs_write baseDir env p content =
      ({ success := none, path := p, size := none,
         error := some "Access denied: Path outside allowed directory" }, env)) ∧
    SandboxFs.fs_list baseDir env p =
      { success := none, path := p, items := none,
        error := some "Access denied: Path outside allowed directory" } ∧
    SandboxFs.fs_exists baseDir env p =
      { exists? := none, path := p, type := none,
        error := some "Access denied: Path outside allowed directory" } ∧
    SandboxFs.fs_delete baseDir env p =
      ({ success := none, path := p,
         error := some "Access denied: Path outside allowed directory" }, env) ∧
    (∀ toP, SandboxFs.fs_copy baseDir env p toP =
      ({ success := none, fromPath := p, toPath := toP,
         error := some "Access denied: Path outside allowed directory" }, env)) ∧
    (∀ fromP, baseDir.data.isPrefixOf (SandboxFs.resolve baseDir fromP).data = true →
      SandboxFs.fs_copy baseDir env fromP p =
        ({ success := none, fromPath := fromP, toPath := p,
           error := some "Access denied: Path outside allowed directory" }, env)) ∧
    (∀ (γ : Type) (parse : String → Option γ),
      SandboxFs.fs_json_read parse baseDir env p =
        { success := none, path := p, data := none,
          error := some "Access denied: Path outside allowed directory" }) ∧
    (∀ (γ : Type) (stringify : γ → String) (data : γ),
      SandboxFs.fs_json_write stringify baseDir env p data =
        ({ success := none, path := p,
           error := some "Access denied: Path outside allowed directory" }, env)) := by
  have hesc := SandboxFs.safePath_escape baseDir p h
  refine ⟨hesc, ?_, ?_, ?_, ?_, ?_, ?_, ?_, ?_, ?_, ?_⟩
  · intro q hq
    exact SandboxFs.safePath_ok baseDir q hq
  · simp [SandboxFs.fs_read, hesc]
  · intro content
    simp [SandboxFs.fs_write, hesc]
  · simp [SandboxFs.fs_list, hesc]
  · simp [SandboxFs.fs_exists, hesc]
  · simp [SandboxFs.fs_delete, hesc]
  · intro toP
    simp [SandboxFs.fs_copy, hesc]
  · intro fromP hfrom
    simp [SandboxFs.fs_copy, hesc, SandboxFs.safePath_ok baseDir fromP hfrom]
  · intro γ parse
    simp [SandboxFs.fs_json_read, hesc]
  · intro γ stringify data
    simp [SandboxFs.fs_json_write, hesc]

/-- Witness for C1 (amended): `../../etc/passwd` under root `/app/asx`
resolves to `/etc/passwd`, fails the prefix test and is rejected by every
handler without touching the filesystem map. -/
theorem sandbox_fs_prefix_guard_amended_witness :
    SandboxFs.safePath "/app/asx" "../../etc/passwd" =
      Except.error "Access denied: Path outside allowed directory" ∧
    SandboxFs.safePath "/app/asx" "tapes/alpha" =
      Except.ok "/app/asx/tapes/alpha" ∧
    SandboxFs.fs_read "/app/asx" [("/etc/passwd", "rootx")] "../../etc/passwd" =
      { success := none, path := "../../etc/passwd", content := none, size := none,
        error := some "Access denied: Path outside allowed directory" } ∧
    SandboxFs.fs_delete "/app/asx" [("/etc/passwd", "rootx")] "../../etc/passwd" =
      ({ success := none, path := "../../etc/passwd",
         error := some "Access denied: Path outside allowed directory" },
       [("/etc/passwd", "rootx")]) :=
  have happ := sandbox_fs_prefix_guard_amended "/app/asx" [("/etc/passwd", "rootx")]
    "../../etc/passwd" rfl
  ⟨happ.1,
   (happ.2.1 "tapes/alpha" rfl).trans (by rfl),
   happ.2.2.1,
   happ.2.2.2.2.2.2.1⟩

/- ===============================================================
   SCXQ2 codec: src/xjson-server/handlers/scxq2.js
   =============================================================== -/

namespace Scxq2

/-- Regex word character (`\w`). -/
def wordChar (c : Char) : Bool := c.isAlpha || c.isDigit || c = '_'

/-- Case-insensitive character comparison (regex `i` flag). -/
def lowerEq (p c : Char) : Bool := p.toLower = c.toLower

/-- Case-insensitive match of `pat` at the head of the input; returns the
rest on success. -/
def matchCI : List Char → List Char → Option (List Char)
  | [], rest => some rest
  | _ :: _, [] => none
  | p :: ps, c :: cs => if lowerEq p c then matchCI ps cs else none

/-- The word-boundary test after a match (`\b`). -/
def boundaryAfter : List Char → Bool
  | [] => true
  | c :: _ => !wordChar c

/-- One global, case-insensitive, whole-word replacement
(`compressed.replace(new RegExp("\\b" + word + "\\b", "gi"), symbol)`):
scan left to right; at a position whose previous character is not a word
character, a case-insensitive occurrence of `pat` followed by a non-word
character (or the end) is replaced, and scanning resumes after it.  `fuel`
bounds the scan; every step consumes at least one character for the
nonempty keywords used here, so `fuel = length` never truncates. -/
def replaceWordCIAux (pat rep : List Char) : Nat → Bool → List Char → List Char
  | 0, _, s => s
  | _ + 1, _, [] => []
  | fuel + 1, prevWord, c :: cs =>
    if prevWord then c :: replaceWordCIAux pat rep fuel (wordChar c) cs
    else
      match matchCI pat (c :: cs) with
      | some rest =>
        if boundaryAfter rest then rep ++ replaceWordCIAux pat rep fuel true rest
        else c :: replaceWordCIAux pat rep fuel (wordChar c) cs
      | none => c :: replaceWordCIAux pat rep fuel (wordChar c) cs

def replaceWordCI (pat rep s : List Char) : List Char :=
  replaceWordCIAux pat rep s.length false s

/-- Whether the scan of `replaceWordCIAux` finds any occurrence. -/
def hasWordCIAux (pat : List Char) : Nat → Bool → List Char → Bool
  | 0, _, _ => false
  | _ + 1, _, [] => false
  | fuel + 1, prevWord, c :: cs =>
    if prevWord then hasWordCIAux pat fuel (wordChar c) cs
    else
      match matchCI pat (c :: cs) with
      | some rest =>
        if boundaryAfter rest then true
        else hasWordCIAux pat fuel (wordChar c) cs
      | none => hasWordCIAux pat fuel (wordChar c) cs

def hasWordCI (pat s : List Char) : Bool := hasWordCIAux pat s.length false s

/-- Exact match of `pat` at the head of the input. -/
def matchExact : List Char → List Char → Option (List Char)
  | [], rest => some rest
  | _ :: _, [] => none
  | p :: ps, c :: cs => if p = c then matchExact ps cs else none

/-- One global plain-text replacement
(`expanded.replace(new RegExp(symbol, "g"), word)`; the symbols contain no
regex metacharacters): leftmost, non-overlapping. -/
def replaceAllAux (pat rep : List Char) : Nat → List Char → List Char
  | 0, s => s
  | _ + 1, [] => []
  | fuel + 1, c :: cs =>
    match matchExact pat (c :: cs) with
    | some rest => rep ++ replaceAllAux pat rep fuel rest
    | none => c :: replaceAllAux pat rep fuel cs

def replaceAll (pat rep s : List Char) : List Char :=
  replaceAllAux pat rep s.length s

/-- The `commonWords` table of `compressText`, in source order. -/
def commonWords : List (String × String) :=
  [("the", "⟁t"), ("and", "⟁a"), ("for", "⟁f"), ("with", "⟁w"),
   ("this", "⟁h"), ("that", "⟁T"), ("from", "⟁F"), ("have", "⟁H"),
   ("will", "⟁W"), ("your", "⟁Y")]

/-- The `symbolMap` table of `decompressText`, in source order. -/
def symbolMap : List (String × String) :=
  [("⟁t", "the"), ("⟁a", "and"), ("⟁f", "for"), ("⟁w", "with"),
   ("⟁h", "this"), ("⟁T", "that"), ("⟁F", "from"), ("⟁H", "have"),
   ("⟁W", "will"), ("⟁Y", "your")]

/-- `compressText`: the ten keyword replacements in order. -/
def compressText (s : String) : String :=
  String.mk (commonWords.foldl
    (fun acc pr => replaceWordCI pr.1.data pr.2.data acc) s.data)

/-- `decompressText`: the ten symbol replacements in order. -/
def decompressText (s : String) : String :=
  String.mk (symbolMap.foldl
    (fun acc pr => replaceAll pr.1.data pr.2.data acc) s.data)

/-- The property-name rule of `compressJSON`
(`.replace(/"(\w+)":/g, "⟁$1⟁")`): a quote, one or more word characters,
a quote and a colon become the name wrapped in two `⟁`. -/
def replacePropsAux : Nat → List Char → List Char
  | 0, s => s
  | _ + 1, [] => []
  | fuel + 1, c :: cs =>
    if c = '"' then
      match cs.takeWhile wordChar, cs.drop (cs.takeWhile wordChar).length with
      | _ :: _, '"' :: ':' :: rest2 =>
        ('⟁' :: cs.takeWhile wordChar) ++ '⟁' :: replacePropsAux fuel rest2
      | _, _ => c :: replacePropsAux fuel cs
    else c :: replacePropsAux fuel cs

/-- The whitespace removal `.replace(/\s+/g, "")`. -/
def stripWhitespace (s : List Char) : List Char := s.filter (fun c => !c.isWhitespace)

/-- `compressJSON` applied to an already-stringified JSON text: property
names, then `,"`, then `null`/`true`/`false`, then whitespace removal. -/
def compressJSONChars (s : List Char) : List Char :=
  stripWhitespace
    (replaceAll "false".data ['⟅']
      (replaceAll "true".data ['⟄']
        (replaceAll "null".data ['⟃']
          (replaceAll [',', '"'] ['⟂', '"']
            (replacePropsAux s.length s)))))

/-- The inverse property-name rule of `decompressJSON`
(`.replace(/⟁(\w+)⟁/g, "\"$1\":")`). -/
def expandPropsAux : Nat → List Char → List Char
  | 0, s => s
  | _ + 1, [] => []
  | fuel + 1, c :: cs =>
    if c = '⟁' then
      match cs.takeWhile wordChar, cs.drop (cs.takeWhile wordChar).length with
      | _ :: _, '⟁' :: rest2 =>
        ('"' :: cs.takeWhile wordChar) ++ '"' :: ':' :: expandPropsAux fuel rest2
      | _, _ => c :: expandPropsAux fuel cs
    else c :: expandPropsAux fuel cs

/-- The expansion part of `decompressJSON`, in source order. -/
def expandJSONChars (s : List Char) : List Char :=
  replaceAll ['⟅'] "false".data
    (replaceAll ['⟄'] "true".data
      (replaceAll ['⟃'] "null".data
        (replaceAll ['⟂'] [',', '"']
          (expandPropsAux s.length s))))

/-- `JSON.stringify` escaping of one character inside a string literal
(control characters other than newline, carriage return and tab are not
modelled; no theorem below reaches them). -/
def escChar (c : Char) : List Char :=
  if c = '"' then ['\\', '"']
  else if c = '\\' then ['\\', '\\']
  else if c = '\n' then ['\\', 'n']
  else if c = '\r' then ['\\', 'r']
  else if c = '\t' then ['\\', 't']
  else [c]

/-- `JSON.stringify` of a string payload. -/
def jsonQuote (s : String) : String :=
  String.mk ('"' :: (s.data.map escChar).flatten ++ ['"'])

/-- Unescape the body of a JSON string literal (inverse of `escChar`; a
raw quote or a dangling backslash fails). -/
def unescapeChars : List Char → Option (List Char)
  | [] => some []
  | '\\' :: e :: rest =>
    if e = '"' then (unescapeChars rest).map (fun l => '"' :: l)
    else if e = '\\' then (unescapeChars rest).map (fun l => '\\' :: l)
    else if e = 'n' then (unescapeChars rest).map (fun l => '\n' :: l)
    else if e = 'r' then (unescapeChars rest).map (fun l => '\r' :: l)
    else if e = 't' then (unescapeChars rest).map (fun l => '\t' :: l)
    else none
  | ['\\'] => none
  | '"' :: _ => none
  | c :: rest => (unescapeChars rest).map (fun l => c :: l)

/-- `JSON.parse` restricted to string literals (this embedding carries
string payloads through the codec). -/
def jsonUnquote (s : String) : Option String :=
  match s.data with
  | '"' :: rest =>
    if rest.getLast? = some '"' then (unescapeChars rest.dropLast).map String.mk
    else none
  | _ => none

/-- `decompressJSON` for string payloads: expand, then parse. -/
def decompressJSON (s : String) : Except String String :=
  match jsonUnquote (String.mk (expandJSONChars s.data)) with
  | some d => .ok d
  | none => .error "Unexpected token in JSON"

/-- Input of `scxq2_encode` with a string payload (`standard` mode
auto-detects a string payload and takes the `compressText` branch). -/
structure EncodeInput where
  data : String
  mode : String
deriving Repr, DecidableEq

/-- Result of `scxq2_encode` (the formatted `ratio` percentage string is
presentational and omitted; sizes are UTF-16-agnostic character counts). -/
structure EncodeResult where
  success : Option Bool
  compressed : Option String
  original_size : Option Nat
  compressed_size : Option Nat
  mode : String
  error : Option String
deriving Repr, DecidableEq

/-- Handler `scxq2_encode` for string payloads. -/
def scxq2_encode (input : EncodeInput) : EncodeResult :=
  let compressed :=
    if input.mode = "json" then
      String.mk (compressJSONChars (jsonQuote input.data).data)
    else if input.mode = "text" then compressText input.data
    else compressText input.data
  { success := some true, compressed := some compressed,
    original_size := some (jsonQuote input.data).length,
    compressed_size := some compressed.length,
    mode := input.mode, error := none }

structure DecodeInput where
  compressed : String
  mode : String
deriving Repr, DecidableEq

structure DecodeResult where
  success : Option Bool
  data : Option String
  mode : String
  error : Option String
deriving Repr, DecidableEq

/-- Handler `scxq2_decode` for string payloads: `json` and `text` modes
dispatch directly; `standard` mode auto-detects by
`compressed.startsWith("⟁")`. -/
def scxq2_decode (input : DecodeInput) : DecodeResult :=
  let dataRes :=
    if input.mode = "json" then decompressJSON input.compressed
    else if input.mode = "text" then .ok (decompressText input.compressed)
    else if input.compressed.startsWith "⟁" then decompressJSON input.compressed
    else .ok (decompressText input.compressed)
  match dataRes with
  | .ok d => { success := some true, data := some d, mode := input.mode, error := none }
  | .error msg => { success := none, data := none, mode := input.mode, error := some msg }

theorem replaceWordCIAux_of_not_has (pat rep : List Char) :
    ∀ (fuel : Nat) (b : Bool) (s : List Char),
      hasWordCIAux pat fuel b s = false → replaceWordCIAux pat rep fuel b s = s := by
  intro fuel
  induction fuel with
  | zero => intro b s _; rfl
  | succ n ih =>
    intro b s h
    cases s with
    | nil => rfl
    | cons c cs =>
      by_cases hb : b = true
      · subst hb
        simp only [hasWordCIAux, if_true] at h
        simp only [replaceWordCIAux, if_true]
        rw [ih _ _ h]
      · have hb' : b = false := by
          cases b
          · rfl
          · exact absurd rfl hb
        subst hb'
        cases hm : matchCI pat (c :: cs) with
        | none =>
          simp only [hasWordCIAux, Bool.false_eq_true, if_false, hm] at h
          simp only [replaceWordCIAux, Bool.false_eq_true, if_false, hm]
          rw [ih _ _ h]
        | some rest =>
          cases hba : boundaryAfter rest with
          | true =>
            simp only [hasWordCIAux, Bool.false_eq_true, if_false, hm, hba, if_true] at h
            exact absurd h (by decide)
          | false =>
            simp only [hasWordCIAux, Bool.false_eq_true, if_false, hm, hba] at h
            simp only [replaceWordCIAux, Bool.false_eq_true, if_false, hm, hba]
            rw [ih _ _ h]

theorem compressText_eq_of_no_match (x : String)
    (h1 : ∀ pr ∈ commonWords, hasWordCI pr.1.data x.data = false) :
    compressText x = x := by
  have hfold : ∀ (l : List (String × String)),
      (∀ pr ∈ l, hasWordCI pr.1.data x.data = false) →
      l.foldl (fun acc pr => replaceWordCI pr.1.data pr.2.data acc) x.data = x.data := by
    intro l
    induction l with
    | nil => intro _; rfl
    | cons pr rest ih =>
      intro hall
      rw [List.foldl_cons]
      have hone : replaceWordCI pr.1.data pr.2.data x.data = x.data :=
        replaceWordCIAux_of_not_has pr.1.data pr.2.data _ false x.data
          (hall pr (List.mem_cons_self pr rest))
      rw [hone]
      exact ih (fun q hq => hall q (List.mem_cons_of_mem pr hq))
  show String.mk (commonWords.foldl
    (fun acc pr => replaceWordCI pr.1.data pr.2.data acc) x.data) = x
  rw [hfold commonWords h1]

theorem replaceAllAux_of_head_not_mem (g : Char) (ps rep : List Char) :
    ∀ (fuel : Nat) (s : List Char), g ∉ s →
      replaceAllAux (g :: ps) rep fuel s = s := by
  intro fuel
  induction fuel with
  | zero => intro s _; rfl
  | succ n ih =>
    intro s hg
    cases s with
    | nil => rfl
    | cons c cs =>
      have hgc : ¬ g = c := fun h => hg (h ▸ List.mem_cons_self c cs)
      have hm : matchExact (g :: ps) (c :: cs) = none := by
        simp [matchExact, hgc]
      simp only [replaceAllAux, hm]
      rw [ih cs (fun h => hg (List.mem_cons_of_mem c h))]

theorem decompressText_eq_of_no_glyph (x : String) (h2 : '⟁' ∉ x.data) :
    decompressText x = x := by
  have hfold : ∀ (l : List (String × String)),
      (∀ pr ∈ l, ∃ ps, pr.1.data = '⟁' :: ps) →
      l.foldl (fun acc pr => replaceAll pr.1.data pr.2.data acc) x.data = x.data := by
    intro l
    induction l with
    | nil => intro _; rfl
    | cons pr rest ih =>
      intro hall
      rw [List.foldl_cons]
      rcases hall pr (List.mem_cons_self pr rest) with ⟨ps, hps⟩
      have hone : replaceAll pr.1.data pr.2.data x.data = x.data := by
        show replaceAllAux pr.1.data pr.2.data x.data.length x.data = x.data
        rw [hps]
        exact replaceAllAux_of_head_not_mem '⟁' ps pr.2.data x.data.length x.data h2
      rw [hone]
      exact ih (fun q hq => hall q (List.mem_cons_of_mem pr hq))
  show String.mk (symbolMap.foldl
    (fun acc pr => replaceAll pr.1.data pr.2.data acc) x.data) = x
  rw [hfold symbolMap ?_]
  intro pr hpr
  fin_cases hpr <;> exact ⟨_, rfl⟩

end Scxq2

/-- C2 counterexample: in text mode, `scxq2_encode` maps `"THE"` to `"⟁t"`
(the keyword regexes are case-insensitive) and `scxq2_decode` expands
`"⟁t"` to the lowercase `"the"`, so `decode(encode("THE")) = "the" ≠ "THE"`
although the encode call succeeded. -/
theorem scxq2_roundtrip_counterexample :
    (Scxq2.scxq2_encode ⟨"THE", "text"⟩).success = some true ∧
    (Scxq2.scxq2_encode ⟨"THE", "text"⟩).compressed = some "⟁t" ∧
    (Scxq2.scxq2_decode ⟨"⟁t", "text"⟩).data = some "the" ∧
    ("the" : String) ≠ "THE" :=
  ⟨rfl, rfl, rfl, by decide⟩

/-- C2 amended: in text mode the round-trip identity holds exactly for
inputs on which no replacement fires: when the input contains no
case-insensitive whole-word occurrence of any of the ten keywords and no
`⟁` character, `scxq2_encode` succeeds with the input unchanged and
`scxq2_decode` returns the original; in general (case-variant keywords,
symbol collisions, JSON whitespace stripping) decode∘encode is not the
identity. -/
theorem scxq2_text_roundtrip_amended (x : String)
    (h1 : ∀ pr ∈ Scxq2.commonWords, Scxq2.hasWordCI pr.1.data x.data = false)
    (h2 : '⟁' ∉ x.data) :
    Scxq2.compressText x = x ∧
    Scxq2.decompressText x = x ∧
    (Scxq2.scxq2_encode ⟨x, "text"⟩).success = some true ∧
    (Scxq2.scxq2_encode ⟨x, "text"⟩).compressed = some x ∧
    (∀ c, (Scxq2.scxq2_encode ⟨x, "text"⟩).compressed = some c →
      (Scxq2.scxq2_decode ⟨c, "text"⟩).data = some x) := by
  have hc : Scxq2.compressText x = x := Scxq2.compressText_eq_of_no_match x h1
  have hd : Scxq2.decompressText x = x := Scxq2.decompressText_eq_of_no_glyph x h2
  refine ⟨hc, hd, rfl, ?_, ?_⟩
  · show some (Scxq2.compressText x) = some x
    rw [hc]
  · intro c hcc
    have hcx : c = x := by
      have hcc2 : some (Scxq2.compressText x) = some c := hcc
      have := Option.some.inj hcc2
      rw [hc] at this
      exact this.symm
    subst hcx
    show (match (.ok (Scxq2.decompressText c) : Except String String) with
      | .ok d =>
        ({ success := some true, data := some d, mode := "text", error := none } :
          Scxq2.DecodeResult)
      | .error msg =>
        { success := none, data := none, mode := "text", error := some msg }).data
      = some c
    rw [hd]

/-- Witness for C2 (amended): `"hello world"` round-trips unchanged in
text mode. -/
theorem scxq2_text_roundtrip_amended_witness :
    Scxq2.compressText "hello world" = "hello world" ∧
    Scxq2.decompressText "hello world" = "hello world" ∧
    (Scxq2.scxq2_encode ⟨"hello world", "text"⟩).success = some true ∧
    (Scxq2.scxq2_encode ⟨"hello world", "text"⟩).compressed = some "hello world" ∧
    (∀ c, (Scxq2.scxq2_encode ⟨"hello world", "text"⟩).compressed = some c →
      (Scxq2.scxq2_decode ⟨c, "text"⟩).data = some "hello world") :=
  scxq2_text_roundtrip_amended "hello world"
    (by intro pr hpr; fin_cases hpr <;> decide)
    (by decide)
